import Mathlib

/-!
Verification of the `doit` command dispatcher (src/main.rs): a shallow
embedding of its template-rendering engine and command-pipeline executor,
followed by theorems settling the frozen claims.

Modelling conventions:
* Rust `String`/`&str` values are Lean `String`; the rendering stages work on
  `List Char`.  The one place the source indexes a string by BYTE position
  (`&template[..1]` in `render_template`) is modelled through `Char.utf8Size`,
  and the panic it can raise is a distinct outcome (`RunResult.panic`).
* The process environment, the home directory (with its trailing slash, as the
  `HOME` static stores it), the user database, process spawning, and the
  `Display` rendering of a TOML value are external effects; they are supplied
  as a record of pure functions (`RunCtx`).  `env` merges the
  `NotPresent`/`NotUnicode` error cases of `std::env::var` into `none`.
* `usize` arithmetic follows a release build: `0 - 1` wraps to `2 ^ 64 - 1`
  (overflow checks off, 64-bit target).
* The regex stages (`%env:(.*?):(.*?)%`, `%env:(.*?)%`, `%(.*?)%`,
  `~([a-z_][a-z0-9_-]\x7b0,30\x7d)?/`) are implemented as leftmost-first
  scanners in which `.` does not match a newline and the lazy groups backtrack
  exactly as the `regex` crate does; `replace_all` is a single left-to-right
  pass that never rescans replacement text.
* Each executed step (each call of `runCommand`) is recorded in a trace so that
  ordering/abort claims are statable.
-/

/-- A TOML item, restricted to the shapes the dispatcher inspects:
strings, arrays, tables, and anything else (`other`). -/
inductive TomlVal where
  | str (s : String)
  | arr (vs : List TomlVal)
  | table (kvs : List (String × TomlVal))
  | other
  deriving Inhabited

/-- An ordered TOML table (also used for the whole document). -/
abbrev Tbl := List (String × TomlVal)

/-- `Item::as_str`. -/
def TomlVal.as_str : TomlVal → Option String
  | .str s => some s
  | _ => none

/-- `Item::as_array`. -/
def TomlVal.as_array : TomlVal → Option (List TomlVal)
  | .arr vs => some vs
  | _ => none

/-- `Item::as_table`. -/
def TomlVal.as_table : TomlVal → Option Tbl
  | .table kvs => some kvs
  | _ => none

/-- `Table::get` on an ordered table (TOML keys are unique; first match). -/
def tget : Tbl → String → Option TomlVal
  | [], _ => none
  | (k, v) :: rest, key => if k = key then some v else tget rest key

/-- `Table::contains_key`. -/
def containsKey (t : Tbl) (k : String) : Bool := (tget t k).isSome

/-- Outcome of `Command::spawn` + `Child::wait` for one argv. -/
inductive SpawnResult where
  | spawnError (e : String)
  | waitError (e : String)
  | exited (code : Option Int)
  deriving Inhabited

/-- The ambient effects of the program, as pure functions. -/
structure RunCtx where
  env : String → Option String
  /-- the `HOME` static: home directory WITH its trailing slash. -/
  home : String
  /-- `get_user_by_name(u).home_dir()`, without a trailing slash. -/
  userHome : String → Option String
  spawn : List String → SpawnResult
  /-- the `Display` rendering of a TOML value (used only in one message). -/
  display : TomlVal → String

/-- Outcome of a fallible computation that can also panic
(Rust panics abort the whole invocation). -/
inductive RunResult (α : Type) where
  | panic
  | err (e : String)
  | ok (a : α)
  deriving DecidableEq, Inhabited

/-! ## The rendering scanners -/

/-- The internal escape sentinel `ASCII_SUB1 = "\x1A\x01"`. -/
def sub1 : List Char := ['\x1a', '\x01']

/-- Replace every (leftmost, non-overlapping) occurrence of the two-character
sequence `[a, b]` by `rep`; this is Rust `str::replace` for a two-byte
needle.  Instantiated for `"%%" -> ASCII_SUB1` and `ASCII_SUB1 -> "%"`. -/
def repPair (a b : Char) (rep : List Char) : List Char → List Char
  | [] => []
  | [c] => [c]
  | x :: y :: rest =>
    if x = a ∧ y = b then rep ++ repPair a b rep rest
    else x :: repPair a b rep (y :: rest)

/-- Scan to the first occurrence of `stop`, with no newline allowed before it
(the regex `.` does not match a newline): returns the chunk before `stop` and
the remainder after it. -/
def scanToChar (stop : Char) : List Char → Option (List Char × List Char)
  | [] => none
  | c :: rest =>
    if c = '\x0a' then none
    else if c = stop then some ([], rest)
    else
      match scanToChar stop rest with
      | none => none
      | some (a, b) => some (c :: a, b)

/-- Strip a literal pattern from the front of a list, or fail. -/
def stripLit : List Char → List Char → Option (List Char)
  | [], l => some l
  | _ :: _, [] => none
  | p :: ps, c :: cs => if c = p then stripLit ps cs else none

/-- The literal `%env:` that opens both environment patterns. -/
def envPat : List Char := ['%', 'e', 'n', 'v', ':']

/-- Match `(.*?):(.*?)%` with lazy-group backtracking: group 1 runs to a `:`,
group 2 to the following `%`; if no `%` is reachable (newline or end first),
group 1 extends past that `:` to the next one.  Fuel-structural; the fuel is
set to the input length by `matchEnv0Groups`. -/
def matchEnv0GroupsF : Nat → List Char → Option (List Char × List Char × List Char)
  | 0, _ => none
  | fuel + 1, l =>
    match scanToChar ':' l with
    | none => none
    | some (g1, rest1) =>
      match scanToChar '%' rest1 with
      | some (g2, rest2) => some (g1, g2, rest2)
      | none =>
        match matchEnv0GroupsF fuel rest1 with
        | none => none
        | some (g1b, g2, rest2) => some (g1 ++ ':' :: g1b, g2, rest2)

def matchEnv0Groups (l : List Char) : Option (List Char × List Char × List Char) :=
  matchEnv0GroupsF l.length l

/-- Try to match `ENV0_RE = %env:(.*?):(.*?)%` at the head of the input. -/
def env0TM (l : List Char) : Option ((List Char × List Char) × List Char) :=
  match stripLit envPat l with
  | none => none
  | some rest =>
    match matchEnv0Groups rest with
    | none => none
    | some (g1, g2, r) => some ((g1, g2), r)

/-- Try to match `ENV1_RE = %env:(.*?)%` at the head of the input. -/
def env1TM (l : List Char) : Option (List Char × List Char) :=
  match stripLit envPat l with
  | none => none
  | some rest => scanToChar '%' rest

/-- Try to match `VAR_RE = %(.*?)%` at the head of the input. -/
def varTM (l : List Char) : Option (List Char × List Char) :=
  match l with
  | [] => none
  | c :: rest => if c = '%' then scanToChar '%' rest else none

/-- `[a-z_]`, the first character of a `~user` name. -/
def isUserStart (c : Char) : Bool := ('a' ≤ c ∧ c ≤ 'z') ∨ c = '_'

/-- `[a-z0-9_-]`, the remaining characters of a `~user` name. -/
def isUserChar (c : Char) : Bool :=
  ('a' ≤ c ∧ c ≤ 'z') ∨ ('0' ≤ c ∧ c ≤ '9') ∨ c = '_' ∨ c = '-'

/-- Try to match `TILDE_USER_RE = ~([a-z_][a-z0-9_-]\x7b0,30\x7d)?/` at the
head of the input.  The greedy optional group must swallow the whole maximal
username run (`/` is outside the character class, so shorter backtracks
fail), and it matches only when that run has at most 31 characters and is
followed by `/`; otherwise the empty group needs `/` directly after `~`. -/
def tildeTM (l : List Char) : Option (Option (List Char) × List Char) :=
  match l with
  | [] => none
  | t :: rest =>
    if t = '~' then
      match rest with
      | [] => none
      | c :: rest2 =>
        if isUserStart c then
          if (rest2.takeWhile isUserChar).length ≤ 30 then
            match rest2.dropWhile isUserChar with
            | '/' :: rest4 => some (some (c :: rest2.takeWhile isUserChar), rest4)
            | _ => none
          else none
        else if c = '/' then some (none, rest2)
        else none
    else none

/-- One `replace_all` pass: at each position try `tm`; on a match emit the
replacement (and its errors) and continue after the match, otherwise keep the
character and move on.  Fuel-structural so that it evaluates by `decide`;
every match consumes at least one character, so input length is enough fuel
(`scanRep` below). -/
def scanRepF {M : Type} (tm : List Char → Option (M × List Char))
    (rf : M → List Char × List String) : Nat → List Char → List Char × List String
  | 0, l => (l, [])
  | _ + 1, [] => ([], [])
  | fuel + 1, c :: rest =>
    match tm (c :: rest) with
    | some (m, rest2) =>
      let rep := rf m
      let out := scanRepF tm rf fuel rest2
      (rep.1 ++ out.1, rep.2 ++ out.2)
    | none =>
      let out := scanRepF tm rf fuel rest
      (c :: out.1, out.2)

def scanRep {M : Type} (tm : List Char → Option (M × List Char))
    (rf : M → List Char × List String) (l : List Char) : List Char × List String :=
  scanRepF tm rf l.length l

/-- Replacement for an `ENV0_RE` match: the environment value if set, else the
literal default.  This closure cannot record an error. -/
def env0RF (env : String → Option String) (m : List Char × List Char) :
    List Char × List String :=
  match env (String.mk m.1) with
  | some v => (v.data, [])
  | none => (m.2, [])

/-- Display of `std::env::VarError::NotPresent`, as interpolated into the
(unclosed) `(Unknown ENV variable: ...` message. -/
def envMissingMsg (name : List Char) : String :=
  "(Unknown ENV variable: " ++ String.mk name ++ ": environment variable not found"

/-- Replacement for an `ENV1_RE` match: the environment value if set;
otherwise record the error and substitute the empty string. -/
def env1RF (env : String → Option String) (m : List Char) : List Char × List String :=
  match env (String.mk m) with
  | some v => (v.data, [])
  | none => ([], [envMissingMsg m])

/-- Replacement for a `VAR_RE` match: the scope value when the key holds a
string; otherwise record the error and substitute the empty string. -/
def varRF (table : Tbl) (m : List Char) : List Char × List String :=
  match tget table (String.mk m) with
  | none => ([], ["(Unknown table key: " ++ String.mk m ++ ")"])
  | some v =>
    match v.as_str with
    | some s => (s.data, [])
    | none => ([], ["(Failed to convert value to string for key: " ++ String.mk m ++ ")"])

/-- An apostrophe, for building the `user not found` message. -/
def squo : String := String.mk ['\x27']

/-- Replacement for a `TILDE_USER_RE` match: the current home directory (it
carries its trailing slash) for a bare `~/`; a named user resolves through the
user database, with the slash re-appended, an unknown user recording an error
and leaving just the slash. -/
def tildeRF (ctx : RunCtx) (m : Option (List Char)) : List Char × List String :=
  match m with
  | none => (ctx.home.data, [])
  | some uname =>
    match ctx.userHome (String.mk uname) with
    | some h => (h.data ++ ['/'], [])
    | none => (['/'], ["user " ++ squo ++ String.mk uname ++ squo ++ " not found!"])

/-- Stage 2: `ENV0_RE.replace_all` (environment with default). -/
def env0Replace (env : String → Option String) (l : List Char) :
    List Char × List String :=
  scanRep env0TM (env0RF env) l

/-- Stage 3: `ENV1_RE.replace_all` (required environment variable). -/
def env1Replace (env : String → Option String) (l : List Char) :
    List Char × List String :=
  scanRep env1TM (env1RF env) l

/-- Stage 4: `VAR_RE.replace_all` (scope-variable substitution). -/
def varReplace (table : Tbl) (l : List Char) : List Char × List String :=
  scanRep varTM (varRF table) l

/-- Stage 5: `TILDE_USER_RE.replace_all` (home-directory expansion). -/
def tildeReplace (ctx : RunCtx) (l : List Char) : List Char × List String :=
  scanRep tildeTM (tildeRF ctx) l

/-- `Vec::join("\n")` on the collected error list. -/
def joinLines : List String → String
  | [] => ""
  | [e] => e
  | e :: rest => e ++ "\x0a" ++ joinLines rest

/-- `render_template`.  An empty string is returned as is; a string whose
first character is not `:` is returned unchanged — but `&template[..1]` is a
BYTE slice, so a multi-byte first character panics ("byte index 1 is not a
char boundary").  A template (leading `:` stripped) runs through: `%%` to
sentinel, ENV0, ENV1, VAR, TILDE (errors of the last three collected in
order), then either the joined error list or the sentinel restored to `%`. -/
def render_template (ctx : RunCtx) (table : Tbl) (template : String) :
    RunResult String :=
  match template.data with
  | [] => .ok template
  | c :: cs =>
    if c.utf8Size ≠ 1 then .panic
    else if c ≠ ':' then .ok template
    else if cs.isEmpty then .ok ""
    else
      let x1 := repPair '%' '%' sub1 cs
      let x2 := (env0Replace ctx.env x1).1
      let s3 := env1Replace ctx.env x2
      let s4 := varReplace table s3.1
      let s5 := tildeReplace ctx s4.1
      let errors := s3.2 ++ s4.2 ++ s5.2
      if errors.isEmpty then .ok (String.mk (repPair '\x1a' '\x01' ['%'] s5.1))
      else .err (joinLines errors)

/-! ## Step runner -/

/-- `run_builtin`: the single known builtin writes a fixed file (the write
itself is an external effect that the model treats as succeeding); any other
name is an error. -/
def run_builtin (cmd : String) (_args : List String) : Except String Unit :=
  if cmd = "write-file" then .ok () else .error (cmd ++ " is not a known builtin.")

/-- `{:?}` of a `String`: quoted, with the escapes relevant here
(quote, backslash, newline, tab, carriage return; other characters are kept
as is, which is all the claims rely on). -/
def rustDebugChar (c : Char) : List Char :=
  if c = '\x22' then ['\x5c', '\x22']
  else if c = '\x5c' then ['\x5c', '\x5c']
  else if c = '\x0a' then ['\x5c', 'n']
  else if c = '\x09' then ['\x5c', 't']
  else if c = '\x0d' then ['\x5c', 'r']
  else [c]

def rustDebugStr (s : String) : String :=
  "\x22" ++ String.mk (s.data.flatMap rustDebugChar) ++ "\x22"

/-- `{:?}` of a `Vec<String>`. -/
def rustDebugList (xs : List String) : String :=
  "[" ++ String.join ((xs.map rustDebugStr).intersperse ", ") ++ "]"

/-- The spawn/wait/exit-code tail of `runCommand` once the marker has been
stripped: builtins dispatch directly; a spawn failure is always an error; with
`ignoreRc` the exit status (and even a wait failure) is ignored, otherwise a
missing code counts as 1 and a non-zero code is an error naming the ORIGINAL
argv and the code. -/
def runResolved (ctx : RunCtx) (ignoreRc : Bool) (orig : List String)
    (cmd : String) (argv : List String) : Except String Unit :=
  if cmd.data.head? = some '&' then run_builtin (String.mk cmd.data.tail) argv
  else
    match ctx.spawn (cmd :: argv) with
    | .spawnError e => .error e
    | res =>
      if ignoreRc then .ok ()
      else
        match res with
        | .waitError e => .error e
        | .spawnError e => .error e
        | .exited code =>
          let rc : Int := code.getD 1
          if rc ≠ 0 then
            .error (rustDebugList orig ++ "\x0afailed with exit status: " ++ toString rc)
          else .ok ()

/-- `runCommand`: empty argv or a leading `#` is a comment no-op; a leading `-rc`
is stripped and suppresses the exit status (alone it is a no-op). -/
def runCommand (ctx : RunCtx) (args : List String) : Except String Unit :=
  match args with
  | [] => .ok ()
  | a0 :: rest =>
    if a0 = "#" then .ok ()
    else if a0 = "-rc" then
      match rest with
      | [] => .ok ()
      | c :: argv => runResolved ctx true args c argv
    else runResolved ctx false args a0 rest

def liftRR : Except String Unit → RunResult Unit
  | .ok _ => .ok ()
  | .error e => .err e

/-- The rendering loop of `run_argv`: each element must extract as a string
and render; the first failure (or render panic) aborts. -/
def renderArgs (ctx : RunCtx) (table : Tbl) : List TomlVal → RunResult (List String)
  | [] => .ok []
  | v :: rest =>
    match v.as_str with
    | none => .err ("Unable to extract argument " ++ ctx.display v ++ " as a string")
    | some s =>
      match render_template ctx table s with
      | .panic => .panic
      | .err e => .err e
      | .ok r =>
        match renderArgs ctx table rest with
        | .ok rs => .ok (r :: rs)
        | other => other

/-- `run_argv`: reject an empty vector, render every element, append the
extra arguments of the caller verbatim, and execute.  The second component is the
trace: the argv of each step actually handed to `runCommand`. -/
def run_argv (ctx : RunCtx) (vec_in : List TomlVal) (which : String) (table : Tbl)
    (index : Nat) (args : List String) : RunResult Unit × List (List String) :=
  if vec_in.isEmpty then
    (.err (which ++ "[" ++ toString index ++ "] arg vector is empty"), [])
  else
    match renderArgs ctx table vec_in with
    | .panic => (.panic, [])
    | .err e => (.err e, [])
    | .ok vs => (liftRR (runCommand ctx (vs ++ args)), [vs ++ args])

/-- One `pre`/`post` step (loop body of `process_pre_post_cmd`): the entry
must itself be an array, and runs with NO extra arguments. -/
def runStep1 (ctx : RunCtx) (table : Tbl) (which : String) (index : Nat)
    (v : TomlVal) : RunResult Unit × List (List String) :=
  match v.as_array with
  | none => (.err (which ++ "[" ++ toString index ++ "] is not an array"), [])
  | some arr => run_argv ctx arr which table index []

/-- The `pre`/`post` loop: steps run in order, the first failure aborts. -/
def runSteps (ctx : RunCtx) (table : Tbl) (which : String) :
    Nat → List TomlVal → RunResult Unit × List (List String)
  | _, [] => (.ok (), [])
  | i, v :: rest =>
    match runStep1 ctx table which i v with
    | (.ok _, t) =>
      let pr := runSteps ctx table which (i + 1) rest
      (pr.1, t ++ pr.2)
    | other => other

/-- `process_pre_post_cmd` (the caller guarantees the key is present; a
missing key would make the `table[which]` index panic). -/
def process_pre_post_cmd (ctx : RunCtx) (which : String) (_cmd_name : String)
    (table : Tbl) : RunResult Unit × List (List String) :=
  match tget table which with
  | none => (.panic, [])
  | some item =>
    match item.as_array with
    | none => (.err (which ++ " is not an array"), [])
    | some steps => runSteps ctx table which 0 steps

/-- `get_command`. -/
def get_command (cmd_name : String) (table : Tbl) : Except String (List TomlVal) :=
  match tget table "command" with
  | none => .error (cmd_name ++ ": missing command array")
  | some v =>
    match v.as_array with
    | some arr => .ok arr
    | none => .error (cmd_name ++ ": command is not an array")

/-- The `pre` phase of `process_cmd` (run only when the key exists). -/
def prePhase (ctx : RunCtx) (cmd_name : String) (table : Tbl) :
    RunResult Unit × List (List String) :=
  if containsKey table "pre" then process_pre_post_cmd ctx "pre" cmd_name table
  else (.ok (), [])

/-- The main step of `process_cmd`: the `command` array rendered, with the
extra arguments of the caller appended. -/
def mainPhase (ctx : RunCtx) (cmd_name : String) (table : Tbl)
    (args : List String) : RunResult Unit × List (List String) :=
  match get_command cmd_name table with
  | .error e => (.err e, [])
  | .ok arr => run_argv ctx arr "main" table 0 args

/-- The `post` phase of `process_cmd`. -/
def postPhase (ctx : RunCtx) (cmd_name : String) (table : Tbl) :
    RunResult Unit × List (List String) :=
  if containsKey table "post" then process_pre_post_cmd ctx "post" cmd_name table
  else (.ok (), [])

/-- `process_cmd`: pre, then main, then post, each aborting the rest on
failure; the trace concatenates the phases actually reached. -/
def process_cmd (ctx : RunCtx) (cmd_name : String) (table : Tbl)
    (args : List String) : RunResult Unit × List (List String) :=
  match prePhase ctx cmd_name table with
  | (.ok _, t1) =>
    match mainPhase ctx cmd_name table args with
    | (.ok _, t2) =>
      match postPhase ctx cmd_name table with
      | (r, t3) => (r, t1 ++ (t2 ++ t3))
    | (r, t2) => (r, t1 ++ t2)
  | r1 => r1

/-! ## Alias locator and front end -/

/-- `SECTION_KEY_RE = ^@(\d+)$` (ASCII digits; the regex class `\d` also
accepts other Unicode decimal digits, on which `parse::<usize>` then fails —
that only changes which error text comes back and no claim touches it). -/
def isDigitC (c : Char) : Bool := '0' ≤ c ∧ c ≤ '9'

def parseSectionKey (name : String) : Option (List Char) :=
  match name.data with
  | '@' :: ds => if ds ≠ [] ∧ ds.all isDigitC then some ds else none
  | _ => none

def digitsToNat (ds : List Char) : Nat :=
  ds.foldl (fun n c => n * 10 + (c.toNat - '0'.toNat)) 0

/-- `get_section`: a positional `@N` reference takes the `N-1`-th entry of the
document in order (`N - 1` computed in wrapping `usize` arithmetic, as a
release build does; `parse::<usize>` fails on overflow with the `INDEX`
error); a plain name is looked up directly.  On a positional hit the literal
key is returned as the canonical name even when the entry is not a table. -/
def get_section (doc : Tbl) (name : String) : Except String (Option Tbl × String) :=
  match parseSectionKey name with
  | some ds =>
    if digitsToNat ds < 2 ^ 64 then
      match doc.get? ((digitsToNat ds + (2 ^ 64 - 1)) % 2 ^ 64) with
      | none => .ok (none, "")
      | some kv => .ok (kv.2.as_table, kv.1)
    else .error "INDEX"
  | none =>
    match tget doc name with
    | some item => .ok (item.as_table, name)
    | none => .error (name ++ " not found in the doit.toml")

/-- `primary` (with the already-parsed document passed in for
`read_doit_file`). -/
def primary (ctx : RunCtx) (doc : Tbl) (cmd_name : String) (args : List String) :
    RunResult Unit × List (List String) :=
  match get_section doc cmd_name with
  | .ok (some table, actual) => process_cmd ctx actual table args
  | .error e => (.err (cmd_name ++ " not found: " ++ e), [])
  | .ok (none, _) => (.err (cmd_name ++ " not found"), [])

/-- The front-end mapping of `main`: success exits 0; a `primary` error goes
through `die`, which prints the message (with `println!`, to standard output)
and calls `exit(1)` unconditionally; a Rust panic aborts with code 101. -/
def frontEnd (ctx : RunCtx) (doc : Tbl) (cmd_name : String) (args : List String) :
    Nat × Option String :=
  match (primary ctx doc cmd_name args).1 with
  | .ok _ => (0, none)
  | .err e => (1, some e)
  | .panic => (101, none)

/-! ## Spec-side definitions and concrete fixtures -/

/-- Modelled from the spec side of claim C7: "`s` with literal `%%` collapsed
to `%`" — the expected right-hand side of the escape round trip, to be
compared with what the code computes. -/
def specCollapsePct (l : List Char) : List Char := repPair '%' '%' ['%'] l

/-- The pattern recognised by `tm` occurs nowhere in `l`: no suffix of `l`
begins a match.  This is the formal reading of a template "containing no
occurrence" of one of the placeholder patterns. -/
def noMatchIn {M : Type} (tm : List Char → Option (M × List Char))
    (l : List Char) : Prop :=
  ∀ c t, (c :: t) <:+ l → tm (c :: t) = none

/-- A context whose every spawn reports exit code `c` (used to exhibit the
front-end behaviour on a failing step). -/
def ctxExit (c : Int) : RunCtx :=
  { env := fun _ => none, home := "/home/u/", userHome := fun _ => none,
    spawn := fun _ => .exited (some c), display := fun _ => "" }

/-- A small concrete context: two environment variables, one known user, and
a spawn table in which only `boom` fails (exit 1). -/
def ctxW : RunCtx :=
  { env := fun s =>
      if s = "GREET" then some "%key%"
      else if s = "PCT" then some "%%" else none,
    home := "/home/u/",
    userHome := fun u => if u = "bob" then some "/home/bob" else none,
    spawn := fun a => if a = ["boom"] then .exited (some 1) else .exited (some 0),
    display := fun _ => "" }

/-- A one-alias document: `t.command = ["x"]`. -/
def docOne : Tbl := [("t", .table [("command", .arr [.str "x"])])]

/-- A two-alias document whose FIRST key sorts alphabetically last. -/
def docTwo : Tbl :=
  [("zzz", .table [("command", .arr [.str "z"])]),
   ("aaa", .table [("command", .arr [.str "a"])])]

/-- A context whose spawns all fail to start. -/
def ctxNoSpawn : RunCtx :=
  { env := fun _ => none, home := "/home/u/", userHome := fun _ => none,
    spawn := fun _ => .spawnError "No such file or directory (os error 2)",
    display := fun _ => "" }

/-- An alias table with pre, main, post steps and a scope key. -/
def tblW : Tbl :=
  [("pre", .arr [.arr [.str "boom"], .arr [.str "ok1"]]),
   ("command", .arr [.str "x"]),
   ("post", .arr [.arr [.str "y"]]),
   ("key", .str "~/sub")]

/-! ## Lemma toolkit: the character scanners -/

theorem scanToChar_none {stop : Char} {l : List Char} (h : stop ∉ l) :
    scanToChar stop l = none := by
  induction l with
  | nil => rfl
  | cons c rest ih =>
    simp only [List.mem_cons, not_or] at h
    simp only [scanToChar]
    by_cases hn : c = '\x0a'
    · rw [if_pos hn]
    · rw [if_neg hn, if_neg (fun hc => h.1 hc.symm), ih h.2]

theorem scanToChar_append {stop : Char} {a r : List Char} (hs : stop ≠ '\x0a')
    (ha : stop ∉ a) (hn : '\x0a' ∉ a) :
    scanToChar stop (a ++ stop :: r) = some (a, r) := by
  induction a with
  | nil => simp [scanToChar, hs]
  | cons c rest ih =>
    simp only [List.mem_cons, not_or] at ha hn
    have hc1 : ¬c = '\x0a' := fun hh => hn.1 hh.symm
    have hc2 : ¬c = stop := fun hh => ha.1 hh.symm
    simp [scanToChar, hc1, hc2, ih ha.2 hn.2]

theorem scanToChar_split {stop : Char} {l a b : List Char}
    (h : scanToChar stop l = some (a, b)) : l = a ++ stop :: b := by
  induction l generalizing a b with
  | nil => exact absurd h (by simp [scanToChar])
  | cons c rest ih =>
    simp only [scanToChar] at h
    by_cases hn : c = '\x0a'
    · rw [if_pos hn] at h; exact absurd h (by simp)
    · rw [if_neg hn] at h
      by_cases hc : c = stop
      · rw [if_pos hc] at h
        obtain ⟨rfl, rfl⟩ : [] = a ∧ rest = b := by
          constructor <;> [exact (Prod.mk.injEq .. ▸ Option.some.inj h).1;
            exact (Prod.mk.injEq .. ▸ Option.some.inj h).2]
        simp [hc]
      · rw [if_neg hc] at h
        cases hsc : scanToChar stop rest with
        | none => rw [hsc] at h; exact absurd h (by simp)
        | some p =>
          obtain ⟨a', b'⟩ := p
          rw [hsc] at h
          obtain ⟨rfl, rfl⟩ : c :: a' = a ∧ b' = b := by
            constructor <;> [exact (Prod.mk.injEq .. ▸ Option.some.inj h).1;
              exact (Prod.mk.injEq .. ▸ Option.some.inj h).2]
          simp [ih hsc]

theorem scanToChar_shorter {stop : Char} {l a b : List Char}
    (h : scanToChar stop l = some (a, b)) : b.length < l.length := by
  have := scanToChar_split h
  subst this
  simp only [List.length_append, List.length_cons]
  omega

theorem stripLit_append (p l : List Char) : stripLit p (p ++ l) = some l := by
  induction p with
  | nil => rfl
  | cons c rest ih => simp [stripLit, ih]

theorem stripLit_split {p l r : List Char} (h : stripLit p l = some r) :
    l = p ++ r := by
  induction p generalizing l with
  | nil => simpa [stripLit] using h
  | cons c ps ih =>
    cases l with
    | nil => exact absurd h (by simp [stripLit])
    | cons x xs =>
      simp only [stripLit] at h
      by_cases hx : x = c
      · rw [if_pos hx] at h
        simp [hx, ih h]
      · rw [if_neg hx] at h; exact absurd h (by simp)

theorem matchEnv0GroupsF_none {l : List Char} (h : scanToChar ':' l = none) :
    ∀ fuel, matchEnv0GroupsF fuel l = none
  | 0 => rfl
  | fuel + 1 => by simp [matchEnv0GroupsF, h]

theorem matchEnv0Groups_no_colon {l : List Char} (h : ':' ∉ l) :
    matchEnv0Groups l = none :=
  matchEnv0GroupsF_none (scanToChar_none h) _

theorem matchEnv0GroupsF_shorter :
    ∀ {fuel : Nat} {l g1 g2 r : List Char},
      matchEnv0GroupsF fuel l = some (g1, g2, r) → r.length < l.length := by
  intro fuel
  induction fuel with
  | zero => intro l g1 g2 r h; exact absurd h (by simp [matchEnv0GroupsF])
  | succ fuel ih =>
    intro l g1 g2 r h
    cases h1 : scanToChar ':' l with
    | none => simp [matchEnv0GroupsF, h1] at h
    | some p1 =>
      obtain ⟨a1, b1⟩ := p1
      simp only [matchEnv0GroupsF, h1] at h
      cases h2 : scanToChar '%' b1 with
      | some p2 =>
        obtain ⟨a2, b2⟩ := p2
        simp only [h2] at h
        obtain ⟨-, -, rfl⟩ := h
        exact lt_trans (scanToChar_shorter h2) (scanToChar_shorter h1)
      | none =>
        simp only [h2] at h
        cases h3 : matchEnv0GroupsF fuel b1 with
        | none => simp [h3] at h
        | some p3 =>
          obtain ⟨c1, c2, c3⟩ := p3
          simp only [h3] at h
          obtain ⟨-, -, rfl⟩ := h
          exact lt_trans (ih h3) (scanToChar_shorter h1)

theorem matchEnv0Groups_shorter {l g1 g2 r : List Char}
    (h : matchEnv0Groups l = some (g1, g2, r)) : r.length < l.length :=
  matchEnv0GroupsF_shorter h

theorem matchEnv0Groups_hit {n d s : List Char}
    (h1 : ':' ∉ n) (h2 : '\x0a' ∉ n) (h3 : '%' ∉ d) (h4 : '\x0a' ∉ d) :
    matchEnv0Groups (n ++ ':' :: (d ++ '%' :: s)) = some (n, d, s) := by
  have hsc1 : scanToChar ':' (n ++ ':' :: (d ++ '%' :: s)) = some (n, d ++ '%' :: s) :=
    scanToChar_append (by decide) h1 h2
  have hsc2 : scanToChar '%' (d ++ '%' :: s) = some (d, s) :=
    scanToChar_append (by decide) h3 h4
  have hlen : (n ++ ':' :: (d ++ '%' :: s)).length =
      (n.length + d.length + s.length + 1) + 1 := by
    simp only [List.length_append, List.length_cons]; omega
  rw [matchEnv0Groups, hlen]
  simp [matchEnv0GroupsF, hsc1, hsc2]

theorem env0TM_nil : env0TM [] = none := rfl

theorem env0TM_cons_ne {c : Char} {t : List Char} (h : c ≠ '%') :
    env0TM (c :: t) = none := by
  simp [env0TM, envPat, stripLit, h]

theorem env0TM_no_colon {l : List Char} (h : ':' ∉ l) : env0TM l = none := by
  cases hs : stripLit envPat l with
  | none => simp [env0TM, hs]
  | some rest =>
    exact absurd (stripLit_split hs ▸ List.mem_append_left rest
      (show ':' ∈ envPat by decide)) h

theorem env0TM_shorter {l : List Char} {m : List Char × List Char} {r : List Char}
    (h : env0TM l = some (m, r)) : r.length < l.length := by
  cases hs : stripLit envPat l with
  | none => simp [env0TM, hs] at h
  | some rest =>
    simp only [env0TM, hs] at h
    cases hg : matchEnv0Groups rest with
    | none => simp [hg] at h
    | some p =>
      obtain ⟨g1, g2, rr⟩ := p
      simp only [hg, Option.some.injEq, Prod.mk.injEq] at h
      have h1 : r.length < rest.length := h.2 ▸ matchEnv0Groups_shorter hg
      have h2 : l.length = envPat.length + rest.length := by
        rw [stripLit_split hs, List.length_append]
      simp only [h2, envPat, List.length_cons]
      omega

theorem env0TM_hit {n d s : List Char}
    (h1 : ':' ∉ n) (h2 : '\x0a' ∉ n) (h3 : '%' ∉ d) (h4 : '\x0a' ∉ d) :
    env0TM ('%' :: 'e' :: 'n' :: 'v' :: ':' :: (n ++ ':' :: (d ++ '%' :: s))) =
      some ((n, d), s) := by
  have hp : '%' :: 'e' :: 'n' :: 'v' :: ':' :: (n ++ ':' :: (d ++ '%' :: s)) =
      envPat ++ (n ++ ':' :: (d ++ '%' :: s)) := rfl
  rw [env0TM, hp, stripLit_append]
  simp [matchEnv0Groups_hit h1 h2 h3 h4]

theorem env1TM_nil : env1TM [] = none := rfl

theorem env1TM_cons_ne {c : Char} {t : List Char} (h : c ≠ '%') :
    env1TM (c :: t) = none := by
  simp [env1TM, envPat, stripLit, h]

theorem env1TM_no_colon {l : List Char} (h : ':' ∉ l) : env1TM l = none := by
  cases hs : stripLit envPat l with
  | none => simp [env1TM, hs]
  | some rest =>
    exact absurd (stripLit_split hs ▸ List.mem_append_left rest
      (show ':' ∈ envPat by decide)) h

theorem env1TM_shorter {l m r : List Char} (h : env1TM l = some (m, r)) :
    r.length < l.length := by
  cases hs : stripLit envPat l with
  | none => simp [env1TM, hs] at h
  | some rest =>
    simp only [env1TM, hs] at h
    have h1 : r.length < rest.length := scanToChar_shorter h
    have h2 : l.length = envPat.length + rest.length := by
      rw [stripLit_split hs, List.length_append]
    simp only [h2, envPat, List.length_cons]
    omega

theorem env1TM_hit {n s : List Char} (h1 : '%' ∉ n) (h2 : '\x0a' ∉ n) :
    env1TM ('%' :: 'e' :: 'n' :: 'v' :: ':' :: (n ++ '%' :: s)) = some (n, s) := by
  have hp : '%' :: 'e' :: 'n' :: 'v' :: ':' :: (n ++ '%' :: s) =
      envPat ++ (n ++ '%' :: s) := rfl
  rw [env1TM, hp, stripLit_append]
  exact scanToChar_append (by decide) h1 h2

theorem varTM_nil : varTM [] = none := rfl

theorem varTM_cons_ne {c : Char} {t : List Char} (h : c ≠ '%') :
    varTM (c :: t) = none := by
  simp [varTM, h]

theorem varTM_no_pct {l : List Char} (h : '%' ∉ l) : varTM l = none := by
  cases l with
  | nil => rfl
  | cons c t =>
    simp only [List.mem_cons, not_or] at h
    exact varTM_cons_ne (fun hc => h.1 hc.symm)

theorem varTM_shorter {l m r : List Char} (h : varTM l = some (m, r)) :
    r.length < l.length := by
  cases l with
  | nil => simp [varTM] at h
  | cons c t =>
    simp only [varTM] at h
    by_cases hc : c = '%'
    · rw [if_pos hc] at h
      have := scanToChar_shorter h
      simp only [List.length_cons]
      omega
    · rw [if_neg hc] at h; exact absurd h (by simp)

theorem varTM_hit {k s : List Char} (h1 : '%' ∉ k) (h2 : '\x0a' ∉ k) :
    varTM ('%' :: (k ++ '%' :: s)) = some (k, s) := by
  simp only [varTM, if_pos rfl]
  exact scanToChar_append (by decide) h1 h2

theorem tildeTM_nil : tildeTM [] = none := rfl

theorem tildeTM_cons_ne {c : Char} {t : List Char} (h : c ≠ '~') :
    tildeTM (c :: t) = none := by
  simp [tildeTM, h]

theorem tildeTM_no_tilde {l : List Char} (h : '~' ∉ l) : tildeTM l = none := by
  cases l with
  | nil => rfl
  | cons c t =>
    simp only [List.mem_cons, not_or] at h
    exact tildeTM_cons_ne (fun hc => h.1 hc.symm)

theorem tildeTM_bare (s : List Char) : tildeTM ('~' :: '/' :: s) = some (none, s) := by
  simp [tildeTM, isUserStart]

theorem tildeTM_shorter {l : List Char} {m : Option (List Char)} {r : List Char}
    (h : tildeTM l = some (m, r)) : r.length < l.length := by
  unfold tildeTM at h
  split at h
  · exact absurd h (by simp)
  next t rest =>
    split at h
    case isFalse => exact absurd h (by simp)
    split at h
    · exact absurd h (by simp)
    next c rest2 =>
      split at h
      · split at h
        case isFalse => exact absurd h (by simp)
        split at h
        next rest4 hd =>
          simp only [Option.some.injEq, Prod.mk.injEq] at h
          obtain ⟨-, h6⟩ := h
          subst h6
          have hsfx : ('/' :: rest4).length ≤ rest2.length := by
            rw [← hd]; exact (List.dropWhile_suffix isUserChar).length_le
          simp only [List.length_cons] at hsfx ⊢
          omega
        · exact absurd h (by simp)
      · split at h
        case isFalse => exact absurd h (by simp)
        simp only [Option.some.injEq, Prod.mk.injEq] at h
        obtain ⟨-, h6⟩ := h
        subst h6
        simp only [List.length_cons]
        omega

/-! ## Lemma toolkit: the generic replace-all scan -/

theorem scanRepF_fuel {M : Type} {tm : List Char → Option (M × List Char)}
    {rf : M → List Char × List String}
    (hM : ∀ l m r, tm l = some (m, r) → r.length < l.length) :
    ∀ (fuel1 fuel2 : Nat) (l : List Char), l.length ≤ fuel1 → l.length ≤ fuel2 →
      scanRepF tm rf fuel1 l = scanRepF tm rf fuel2 l := by
  intro fuel1
  induction fuel1 with
  | zero =>
    intro fuel2 l h1 h2
    have : l = [] := List.length_eq_zero.mp (Nat.le_zero.mp h1)
    subst this
    cases fuel2 <;> rfl
  | succ fuel1 ih =>
    intro fuel2 l h1 h2
    cases l with
    | nil => cases fuel2 <;> rfl
    | cons c rest =>
      cases fuel2 with
      | zero => simp at h2
      | succ fuel2 =>
        cases htm : tm (c :: rest) with
        | some p =>
          obtain ⟨m, r⟩ := p
          have hr : r.length < rest.length + 1 := by
            simpa using hM (c :: rest) m r htm
          simp only [List.length_cons] at h1 h2
          simp only [scanRepF, htm]
          rw [ih fuel2 r (by omega) (by omega)]
        | none =>
          simp only [List.length_cons] at h1 h2
          simp only [scanRepF, htm]
          rw [ih fuel2 rest (by omega) (by omega)]

theorem scanRep_nil {M : Type} {tm : List Char → Option (M × List Char)}
    {rf : M → List Char × List String} : scanRep tm rf [] = ([], []) := rfl

theorem scanRep_cons_none {M : Type} {tm : List Char → Option (M × List Char)}
    {rf : M → List Char × List String} {c : Char} {rest : List Char}
    (h : tm (c :: rest) = none) :
    scanRep tm rf (c :: rest) =
      (c :: (scanRep tm rf rest).1, (scanRep tm rf rest).2) := by
  show scanRepF tm rf (rest.length + 1) (c :: rest) = _
  simp only [scanRepF, h]
  rfl

theorem scanRep_match {M : Type} {tm : List Char → Option (M × List Char)}
    {rf : M → List Char × List String}
    (hM : ∀ l m r, tm l = some (m, r) → r.length < l.length)
    {l : List Char} {m : M} {r : List Char} (h : tm l = some (m, r)) :
    scanRep tm rf l =
      ((rf m).1 ++ (scanRep tm rf r).1, (rf m).2 ++ (scanRep tm rf r).2) := by
  cases l with
  | nil => exact absurd (hM [] m r h) (by simp)
  | cons c rest =>
    have hr : r.length ≤ rest.length := by
      have := hM (c :: rest) m r h
      simp only [List.length_cons] at this
      omega
    show scanRepF tm rf (rest.length + 1) (c :: rest) = _
    simp only [scanRepF, h]
    rw [scanRepF_fuel hM rest.length r.length r hr (le_refl _)]
    rfl

theorem scanRep_append_none {M : Type} {tm : List Char → Option (M × List Char)}
    {rf : M → List Char × List String} {p : List Char}
    (hp : ∀ c ∈ p, ∀ t, tm (c :: t) = none) (l : List Char) :
    scanRep tm rf (p ++ l) =
      (p ++ (scanRep tm rf l).1, (scanRep tm rf l).2) := by
  induction p with
  | nil => simp
  | cons c p' ih =>
    have h0 : tm (c :: (p' ++ l)) = none := hp c (List.mem_cons_self c p') _
    rw [List.cons_append, scanRep_cons_none h0,
      ih (fun d hd t => hp d (List.mem_cons_of_mem c hd) t)]
    simp

theorem scanRep_id {M : Type} {tm : List Char → Option (M × List Char)}
    {rf : M → List Char × List String} {l : List Char}
    (h : ∀ c t, (c :: t) <:+ l → tm (c :: t) = none) :
    scanRep tm rf l = (l, []) := by
  induction l with
  | nil => rfl
  | cons c rest ih =>
    rw [scanRep_cons_none (h c rest (List.suffix_refl _)),
      ih (fun d t hdt => h d t (hdt.trans (List.suffix_cons c rest)))]

/-! ## Stage-level identity and drop lemmas -/

theorem env0Replace_no_colon {env : String → Option String} {l : List Char}
    (h : ':' ∉ l) : env0Replace env l = (l, []) :=
  scanRep_id (fun _ _ hdt => env0TM_no_colon (fun hc => h (hdt.subset hc)))

theorem env1Replace_no_colon {env : String → Option String} {l : List Char}
    (h : ':' ∉ l) : env1Replace env l = (l, []) :=
  scanRep_id (fun _ _ hdt => env1TM_no_colon (fun hc => h (hdt.subset hc)))

theorem varReplace_no_pct {table : Tbl} {l : List Char}
    (h : '%' ∉ l) : varReplace table l = (l, []) :=
  scanRep_id (fun _ _ hdt => varTM_no_pct (fun hc => h (hdt.subset hc)))

theorem tildeReplace_no_tilde {ctx : RunCtx} {l : List Char}
    (h : '~' ∉ l) : tildeReplace ctx l = (l, []) :=
  scanRep_id (fun _ _ hdt => tildeTM_no_tilde (fun hc => h (hdt.subset hc)))

/-- The ENV0 stage can never record an error: its replacement closure has no
error channel (the never-errors part of claim C6). -/
theorem env0Replace_no_errors (env : String → Option String) :
    ∀ fuel l, (scanRepF env0TM (env0RF env) fuel l).2 = [] := by
  intro fuel
  induction fuel with
  | zero => intro l; rfl
  | succ fuel ih =>
    intro l
    cases l with
    | nil => rfl
    | cons c rest =>
      simp only [scanRepF]
      cases htm : env0TM (c :: rest) with
      | some p =>
        obtain ⟨m, r⟩ := p
        have : (env0RF env m).2 = [] := by
          unfold env0RF
          cases env (String.mk m.1) <;> rfl
        simp [this, ih r]
      | none => simp [ih rest]

/-! ## Lemma toolkit: the two-character replace -/

theorem repPair_cons {a b : Char} {rep : List Char} {x : Char} {rest : List Char}
    (h : ¬(x = a ∧ rest.head? = some b)) :
    repPair a b rep (x :: rest) = x :: repPair a b rep rest := by
  cases rest with
  | nil => rfl
  | cons y t =>
    have : ¬(x = a ∧ y = b) := by simpa using h
    simp only [repPair, if_neg this]

theorem repPair_pair (a b : Char) (rep rest : List Char) :
    repPair a b rep (a :: b :: rest) = rep ++ repPair a b rep rest := by
  simp [repPair]

theorem repPair_append {a b : Char} {rep p : List Char} (hp : a ∉ p)
    (l : List Char) : repPair a b rep (p ++ l) = p ++ repPair a b rep l := by
  induction p with
  | nil => simp
  | cons c p' ih =>
    simp only [List.mem_cons, not_or] at hp
    rw [List.cons_append,
      repPair_cons (fun hx => hp.1 hx.1.symm), ih hp.2]
    rfl

theorem repPair_id {a b : Char} {rep : List Char} {l : List Char} (h : a ∉ l) :
    repPair a b rep l = l := by
  have h2 : repPair a b rep (l ++ []) = l ++ repPair a b rep [] :=
    repPair_append h []
  simpa [repPair] using h2

theorem repPair_mem {a b : Char} {rep l : List Char} {c : Char}
    (h : c ∈ repPair a b rep l) : c ∈ l ∨ c ∈ rep := by
  induction l using repPair.induct a b rep with
  | case1 => simp [repPair] at h
  | case2 d => left; simpa [repPair] using h
  | case3 x y rest hxy ih =>
    obtain ⟨rfl, rfl⟩ := hxy
    rw [repPair_pair] at h
    rcases List.mem_append.mp h with h1 | h2
    · right; exact h1
    · rcases ih h2 with h3 | h4
      · exact Or.inl (List.mem_cons_of_mem _ (List.mem_cons_of_mem _ h3))
      · right; exact h4
  | case4 x y rest hxy ih =>
    rw [repPair_cons (by simpa using hxy)] at h
    rcases List.mem_cons.mp h with h1 | h2
    · exact Or.inl (h1 ▸ List.mem_cons_self x (y :: rest))
    · rcases ih h2 with h3 | h4
      · exact Or.inl (List.mem_cons_of_mem _ h3)
      · right; exact h4

/-- Does the two-character sequence `[a, b]` occur anywhere in the list? -/
def hasPair (a b : Char) : List Char → Bool
  | [] => false
  | [_] => false
  | x :: y :: rest => if x = a ∧ y = b then true else hasPair a b (y :: rest)

theorem hasPair_of_not_mem {a b : Char} {l : List Char} (h : a ∉ l) :
    hasPair a b l = false := by
  induction l with
  | nil => rfl
  | cons x t ih =>
    simp only [List.mem_cons, not_or] at h
    cases t with
    | nil => rfl
    | cons y t' =>
      rw [hasPair, if_neg (fun hc => h.1 hc.1.symm)]
      exact ih h.2

theorem hasPair_cons_false {a b x y : Char} {rest : List Char}
    (h : hasPair a b (x :: y :: rest) = false) :
    ¬(x = a ∧ y = b) ∧ hasPair a b (y :: rest) = false := by
  by_cases hc : x = a ∧ y = b
  · rw [hasPair, if_pos hc] at h; exact absurd h (by simp)
  · rw [hasPair, if_neg hc] at h; exact ⟨hc, h⟩

theorem hasPair_tail {a b x : Char} {t : List Char}
    (h : hasPair a b (x :: t) = false) : hasPair a b t = false := by
  cases t with
  | nil => rfl
  | cons y t' => exact (hasPair_cons_false h).2

theorem repPairEsc_head (y : Char) (t : List Char) :
    (repPair '%' '%' sub1 (y :: t)).head? = some '\x1a' ∨
      (repPair '%' '%' sub1 (y :: t)).head? = some y := by
  cases t with
  | nil => right; rfl
  | cons z t' =>
    by_cases hc : y = '%' ∧ z = '%'
    · left; rw [repPair, if_pos hc]; rfl
    · right; rw [repPair, if_neg hc]; rfl

/-- The escape round trip: capturing `%%` as the sentinel and restoring the
sentinel to `%` afterwards is the same as collapsing `%%` to `%` directly,
PROVIDED the sentinel sequence does not already occur in the input. -/
theorem repPair_roundtrip {l : List Char}
    (h : hasPair '\x1a' '\x01' l = false) :
    repPair '\x1a' '\x01' ['%'] (repPair '%' '%' sub1 l) =
      repPair '%' '%' ['%'] l := by
  induction l using repPair.induct '%' '%' sub1 with
  | case1 => rfl
  | case2 d => rfl
  | case3 x y rest hxy ih =>
    obtain ⟨rfl, rfl⟩ := hxy
    have hrest : hasPair '\x1a' '\x01' rest = false :=
      hasPair_tail (hasPair_tail h)
    rw [repPair_pair, repPair_pair]
    show repPair '\x1a' '\x01' ['%'] ('\x1a' :: '\x01' :: repPair '%' '%' sub1 rest) = _
    rw [repPair_pair, ih hrest]
  | case4 x y rest hxy ih =>
    obtain ⟨hstep, htl⟩ := hasPair_cons_false h
    have e1 : repPair '%' '%' sub1 (x :: y :: rest) =
        x :: repPair '%' '%' sub1 (y :: rest) := repPair_cons (by simpa using hxy)
    have e2 : repPair '%' '%' (['%'] : List Char) (x :: y :: rest) =
        x :: repPair '%' '%' ['%'] (y :: rest) := repPair_cons (by simpa using hxy)
    have hcond : ¬(x = '\x1a' ∧
        (repPair '%' '%' sub1 (y :: rest)).head? = some '\x01') := by
      rintro ⟨rfl, hh⟩
      rcases repPairEsc_head y rest with h1 | h1
      · rw [h1] at hh; exact absurd (Option.some.inj hh) (by decide)
      · rw [h1] at hh
        exact hstep ⟨rfl, Option.some.inj hh⟩
    rw [e1, repPair_cons hcond, e2, ih htl]

/-! ## Render-level helpers -/

theorem colon_append_data (s : String) : (":" ++ s).data = ':' :: s.data := by
  simp [String.data_append]

theorem colon_append_eq (s : String) : ":" ++ s = String.mk (':' :: s.data) :=
  String.ext (by simp [String.data_append])

theorem noMatchIn_of_drops {M : Type} {tm : List Char → Option (M × List Char)}
    {l : List Char}
    (h : ∀ i, i < l.length → tm (l.drop i) = none) : noMatchIn tm l := by
  intro c t hsfx
  have he := List.suffix_iff_eq_drop.mp hsfx
  by_cases hi : l.length - (c :: t).length < l.length
  · rw [he]; exact h _ hi
  · exfalso
    have h1 : (c :: t).length ≤ l.length := hsfx.length_le
    simp only [List.length_cons] at h1 hi
    omega
  
/-- Opening `render_template` on a genuine template `":" ++ cs` with nonempty
body: the five stages run in sequence and the collected errors decide the
outcome. -/
theorem render_template_run (ctx : RunCtx) (table : Tbl) {cs : List Char}
    (hne : cs ≠ []) :
    render_template ctx table (String.mk (':' :: cs)) =
      (if ((env1Replace ctx.env
              (env0Replace ctx.env (repPair '%' '%' sub1 cs)).1).2 ++
            ((varReplace table
              (env1Replace ctx.env
                (env0Replace ctx.env (repPair '%' '%' sub1 cs)).1).1).2 ++
             (tildeReplace ctx
              (varReplace table
                (env1Replace ctx.env
                  (env0Replace ctx.env (repPair '%' '%' sub1 cs)).1).1).1).2)).isEmpty = true
       then RunResult.ok (String.mk (repPair '\x1a' '\x01' ['%']
              (tildeReplace ctx
                (varReplace table
                  (env1Replace ctx.env
                    (env0Replace ctx.env (repPair '%' '%' sub1 cs)).1).1).1).1))
       else RunResult.err (joinLines
              ((env1Replace ctx.env
                  (env0Replace ctx.env (repPair '%' '%' sub1 cs)).1).2 ++
               ((varReplace table
                  (env1Replace ctx.env
                    (env0Replace ctx.env (repPair '%' '%' sub1 cs)).1).1).2 ++
                (tildeReplace ctx
                  (varReplace table
                    (env1Replace ctx.env
                      (env0Replace ctx.env (repPair '%' '%' sub1 cs)).1).1).1).2)))) := by
  show (match (':' :: cs : List Char) with
    | [] => RunResult.ok (String.mk (':' :: cs))
    | c :: cs' =>
      if c.utf8Size ≠ 1 then .panic
      else if c ≠ ':' then .ok (String.mk (':' :: cs))
      else if cs'.isEmpty then .ok ""
      else
        let x1 := repPair '%' '%' sub1 cs'
        let x2 := (env0Replace ctx.env x1).1
        let s3 := env1Replace ctx.env x2
        let s4 := varReplace table s3.1
        let s5 := tildeReplace ctx s4.1
        let errors := s3.2 ++ s4.2 ++ s5.2
        if errors.isEmpty then .ok (String.mk (repPair '\x1a' '\x01' ['%'] s5.1))
        else .err (joinLines errors)) = _
  have h1 : (':' : Char).utf8Size = 1 := by decide
  simp only [h1, hne, List.isEmpty_iff, ne_eq, not_true_eq_false, if_false,
    ite_not]
  simp [List.append_assoc]

/-! ## Claim C2 -/

/-- Claim C2, counterexample to the claim as stated: the string literal
`"é"` does not begin with `:`, yet `render_template` does NOT return it
unchanged — `&template[..1]` is a byte slice, the first character occupies
two bytes, and the slice panics ("byte index 1 is not a char boundary"). -/
theorem C2_counterexample :
    render_template ctxW [] "é" = .panic ∧
      render_template ctxW [] "é" ≠ .ok "é" := by
  constructor
  · rfl
  · decide

/-- Claim C2 (amended): for every scope and every string whose FIRST
CHARACTER IS A SINGLE UTF-8 BYTE and is not `:`, render returns the string
unchanged with no error (whatever placeholders or `~/` it contains); the
empty string and the lone sentinel `:` render to the empty string; but a
string whose first character is multi-byte makes the byte-slice sentinel
check panic instead of passing the string through. -/
theorem C2_render_passthrough :
    (∀ (ctx : RunCtx) (table : Tbl) (t : String) (c : Char) (cs : List Char),
        t.data = c :: cs → c.utf8Size = 1 → c ≠ ':' →
        render_template ctx table t = .ok t) ∧
    (∀ (ctx : RunCtx) (table : Tbl), render_template ctx table "" = .ok "") ∧
    (∀ (ctx : RunCtx) (table : Tbl), render_template ctx table ":" = .ok "") ∧
    (∀ (ctx : RunCtx) (table : Tbl) (t : String) (c : Char) (cs : List Char),
        t.data = c :: cs → c.utf8Size ≠ 1 →
        render_template ctx table t = .panic) := by
  refine ⟨?_, fun ctx table => rfl, fun ctx table => rfl, ?_⟩
  · intro ctx table t c cs hdata h1 hc
    unfold render_template
    rw [hdata]
    simp [h1, hc]
  · intro ctx table t c cs hdata h1
    unfold render_template
    rw [hdata]
    simp [h1]

/-- Witness for C2: the pass-through, empty and panic clauses at concrete
inputs. -/
theorem C2_witness :
    render_template ctxW [] "x %key% ~/ %%" = .ok "x %key% ~/ %%" ∧
      render_template ctxW [] ":" = .ok "" ∧
      render_template ctxW [] "∀x" = .panic :=
  ⟨C2_render_passthrough.1 ctxW [] _ 'x' _ rfl (by decide) (by decide),
   C2_render_passthrough.2.2.1 ctxW [],
   C2_render_passthrough.2.2.2 ctxW [] _ '∀' _ rfl (by decide)⟩

/-! ## Claim C1 -/

/-- Claim C1: the pipeline is strictly sequential pre-then-main-then-post and
any failure aborts immediately.  (1) A failing pre phase is the whole result:
the main step and post steps contribute nothing to the trace.  (2) With pre
ok and a failing main step, the result carries only the pre and main traces —
no post step runs.  (3) The pipeline is `Ok` exactly when the pre phase, the
main step and the post phase all succeeded.  (4) Within a phase, a failing
step is the whole result of the remaining loop: the steps after it are never
executed (the right side does not mention them).  (5) A phase loop succeeds
exactly when every one of its steps succeeds. -/
theorem C1_pipeline :
    (∀ (ctx : RunCtx) (n : String) (tb : Tbl) (args : List String) (e : String)
        (t : List (List String)),
        prePhase ctx n tb = (.err e, t) →
        process_cmd ctx n tb args = (.err e, t)) ∧
    (∀ (ctx : RunCtx) (n : String) (tb : Tbl) (args : List String)
        (t1 : List (List String)) (e : String) (t2 : List (List String)),
        prePhase ctx n tb = (.ok (), t1) →
        mainPhase ctx n tb args = (.err e, t2) →
        process_cmd ctx n tb args = (.err e, t1 ++ t2)) ∧
    (∀ (ctx : RunCtx) (n : String) (tb : Tbl) (args : List String),
        (process_cmd ctx n tb args).1 = .ok () ↔
          (prePhase ctx n tb).1 = .ok () ∧
            (mainPhase ctx n tb args).1 = .ok () ∧
              (postPhase ctx n tb).1 = .ok ()) ∧
    (∀ (ctx : RunCtx) (tb : Tbl) (which : String) (i : Nat) (v : TomlVal)
        (rest : List TomlVal) (e : String) (t : List (List String)),
        runStep1 ctx tb which i v = (.err e, t) →
        runSteps ctx tb which i (v :: rest) = (.err e, t)) ∧
    (∀ (ctx : RunCtx) (tb : Tbl) (which : String) (i : Nat) (l : List TomlVal),
        (runSteps ctx tb which i l).1 = .ok () ↔
          ∀ (j : Nat) (hj : j < l.length),
            (runStep1 ctx tb which (i + j) (l.get ⟨j, hj⟩)).1 = .ok ()) := by
  refine ⟨?_, ?_, ?_, ?_, ?_⟩
  · intro ctx n tb args e t h
    simp only [process_cmd, h]
  · intro ctx n tb args t1 e t2 h1 h2
    simp only [process_cmd, h1, h2]
  · intro ctx n tb args
    rcases hpre : prePhase ctx n tb with ⟨r1, t1⟩
    cases r1 with
    | panic => simp [process_cmd, hpre]
    | err e => simp [process_cmd, hpre]
    | ok u =>
      cases u
      rcases hmain : mainPhase ctx n tb args with ⟨r2, t2⟩
      cases r2 with
      | panic => simp [process_cmd, hpre, hmain]
      | err e => simp [process_cmd, hpre, hmain]
      | ok u2 =>
        cases u2
        rcases hpost : postPhase ctx n tb with ⟨r3, t3⟩
        simp [process_cmd, hpre, hmain, hpost]
  · intro ctx tb which i v rest e t h
    simp only [runSteps, h]
  · intro ctx tb which i l
    induction l generalizing i with
    | nil => simp [runSteps]
    | cons v rest ih =>
      rcases h1 : runStep1 ctx tb which i v with ⟨r1, t1⟩
      cases r1 with
      | panic =>
        simp only [runSteps, h1]
        constructor
        · intro hh; exact absurd hh (by simp)
        · intro hj
          have h0 := hj 0 (by simp)
          rw [Nat.add_zero] at h0
          simp only [List.get] at h0
          rw [h1] at h0
          exact absurd h0 (by simp)
      | err e =>
        simp only [runSteps, h1]
        constructor
        · intro hh; exact absurd hh (by simp)
        · intro hj
          have h0 := hj 0 (by simp)
          rw [Nat.add_zero] at h0
          simp only [List.get] at h0
          rw [h1] at h0
          exact absurd h0 (by simp)
      | ok u =>
        cases u
        simp only [runSteps, h1]
        constructor
        · intro hh j hj
          cases j with
          | zero =>
            rw [Nat.add_zero]
            simp only [List.get]
            rw [h1]
          | succ j' =>
            have hj' : j' < rest.length := by
              simpa using hj
            have := (ih (i + 1)).mp hh j' hj'
            have harith : i + 1 + j' = i + (j' + 1) := by omega
            rw [harith] at this
            simpa [List.get] using this
        · intro hj
          refine (ih (i + 1)).mpr ?_
          intro j hjlt
          have := hj (j + 1) (by simpa using hjlt)
          have harith : i + (j + 1) = i + 1 + j := by omega
          rw [harith] at this
          simpa [List.get] using this

/-- Witness for C1: in the concrete table `tblW` the first pre step (`boom`,
exit 1) fails, so the pipeline result is exactly that failure with only
`["boom"]` in the trace — the second pre step, the main step and the post
step never run; the loop-level clause shows the same for the phase loop. -/
theorem C1_witness :
    process_cmd ctxW "c" tblW ["extra"] =
      (.err "[\x22boom\x22]\x0afailed with exit status: 1", [["boom"]]) ∧
      runSteps ctxW tblW "pre" 0 [.arr [.str "boom"], .arr [.str "ok1"]] =
        (.err "[\x22boom\x22]\x0afailed with exit status: 1", [["boom"]]) :=
  ⟨C1_pipeline.1 ctxW "c" tblW ["extra"] _ _ (by decide),
   C1_pipeline.2.2.2.1 ctxW tblW "pre" 0 _ _ _ _ (by decide)⟩

/-! ## Claim C5 -/

/-- Claim C5: a step whose first element is the literal `-rc` has that marker
stripped and succeeds regardless of the exit status of the spawned process
(whatever exit code — present or not — the wait reports); `["-rc"]` alone is
a no-op success; but when the process cannot even be spawned, the step still
fails with the spawn error. -/
theorem C5_rc_override :
    (∀ (ctx : RunCtx) (cmd : String) (argv : List String) (code : Option Int),
        cmd.data.head? ≠ some '&' →
        ctx.spawn (cmd :: argv) = .exited code →
        runCommand ctx ("-rc" :: cmd :: argv) = .ok ()) ∧
    (∀ ctx : RunCtx, runCommand ctx ["-rc"] = .ok ()) ∧
    (∀ (ctx : RunCtx) (cmd : String) (argv : List String) (e : String),
        cmd.data.head? ≠ some '&' →
        ctx.spawn (cmd :: argv) = .spawnError e →
        runCommand ctx ("-rc" :: cmd :: argv) = .error e) := by
  refine ⟨?_, fun ctx => rfl, ?_⟩
  · intro ctx cmd argv code h1 h2
    simp [runCommand, runResolved, h1, h2]
  · intro ctx cmd argv e h1 h2
    simp [runCommand, runResolved, h1, h2]

/-- Witness for C5: `["-rc", "boom"]` succeeds although `boom` exits 1;
`["-rc"]` is a no-op; `["-rc", "x"]` still fails when `x` cannot spawn. -/
theorem C5_witness :
    runCommand ctxW ["-rc", "boom"] = .ok () ∧
      runCommand ctxW ["-rc"] = .ok () ∧
      runCommand ctxNoSpawn ["-rc", "x"] =
        .error "No such file or directory (os error 2)" :=
  ⟨C5_rc_override.1 ctxW "boom" [] (some 1) (by decide) rfl,
   C5_rc_override.2.1 ctxW,
   C5_rc_override.2.2 ctxNoSpawn "x" []
     "No such file or directory (os error 2)" (by decide) rfl⟩

/-! ## Claim C8 -/

/-- Claim C8: every element of the main `command` array is rendered through
the Placeholder Resolver (clause 2, element by element), and the
caller-supplied extra arguments are then appended verbatim — the executed
argv is exactly `rendered ++ args` and `args` never passes through the
resolver (clause 1).  The extras reach only the main step: a pre/post phase
is oblivious to them (`process_pre_post_cmd` takes no argument list at all;
clause 4 shows the pipeline result of a failing pre phase is identical for
any two argument lists), while the main invocation receives them (clause 3). -/
theorem C8_extra_args :
    (∀ (ctx : RunCtx) (table : Tbl) (vecIn : List TomlVal) (which : String)
        (index : Nat) (args rendered : List String),
        vecIn ≠ [] →
        renderArgs ctx table vecIn = .ok rendered →
        run_argv ctx vecIn which table index args =
          (liftRR (runCommand ctx (rendered ++ args)), [rendered ++ args])) ∧
    (∀ (ctx : RunCtx) (table : Tbl) (v : TomlVal) (rest : List TomlVal)
        (s r : String) (rs : List String),
        v.as_str = some s →
        render_template ctx table s = .ok r →
        renderArgs ctx table rest = .ok rs →
        renderArgs ctx table (v :: rest) = .ok (r :: rs)) ∧
    (∀ (ctx : RunCtx) (n : String) (tb : Tbl) (args : List String)
        (arr : List TomlVal),
        containsKey tb "pre" = false → containsKey tb "post" = false →
        get_command n tb = .ok arr →
        process_cmd ctx n tb args = run_argv ctx arr "main" tb 0 args) ∧
    (∀ (ctx : RunCtx) (n : String) (tb : Tbl) (args args2 : List String)
        (e : String) (t : List (List String)),
        prePhase ctx n tb = (.err e, t) →
        process_cmd ctx n tb args = process_cmd ctx n tb args2) := by
  refine ⟨?_, ?_, ?_, ?_⟩
  · intro ctx table vecIn which index args rendered hne hra
    simp [run_argv, hne, hra]
  · intro ctx table v rest s r rs h1 h2 h3
    simp [renderArgs, h1, h2, h3]
  · intro ctx n tb args arr hpre hpost hcmd
    have h1 : prePhase ctx n tb = (.ok (), []) := by simp [prePhase, hpre]
    have h3 : postPhase ctx n tb = (.ok (), []) := by simp [postPhase, hpost]
    rcases hrun : run_argv ctx arr "main" tb 0 args with ⟨r2, t2⟩
    cases r2 with
    | panic => simp [process_cmd, h1, h3, mainPhase, hcmd, hrun]
    | err e => simp [process_cmd, h1, h3, mainPhase, hcmd, hrun]
    | ok u => cases u; simp [process_cmd, h1, h3, mainPhase, hcmd, hrun]
  · intro ctx n tb args args2 e t h
    have ha : process_cmd ctx n tb args = (.err e, t) := by
      simp only [process_cmd, h]
    have hb : process_cmd ctx n tb args2 = (.err e, t) := by
      simp only [process_cmd, h]
    rw [ha, hb]

/-- Witness for C8: a plain main step gets the extras appended; a templated
element really goes through the resolver (`:%env:GREET%` renders to
`/home/u/sub` via environment, scope key and home directory); a pre/post-free
table main-dispatches; and with a failing pre step the extras are irrelevant. -/
theorem C8_witness :
    run_argv ctxW [.str "x"] "main" tblW 0 ["extra"] =
      (liftRR (runCommand ctxW (["x"] ++ ["extra"])), [["x"] ++ ["extra"]]) ∧
      renderArgs ctxW tblW [.str ":%env:GREET%"] = .ok ["/home/u/sub"] ∧
      process_cmd ctxW "t" [("command", .arr [.str "x"])] ["e"] =
        run_argv ctxW [.str "x"] "main" [("command", .arr [.str "x"])] 0 ["e"] ∧
      process_cmd ctxW "c" tblW ["a"] = process_cmd ctxW "c" tblW ["b"] :=
  ⟨C8_extra_args.1 ctxW tblW [.str "x"] "main" 0 ["extra"] ["x"] (by simp) rfl,
   C8_extra_args.2.1 ctxW tblW (.str ":%env:GREET%") [] ":%env:GREET%"
      "/home/u/sub" [] rfl rfl rfl,
   C8_extra_args.2.2.1 ctxW "t" [("command", .arr [.str "x"])] ["e"] [.str "x"]
      rfl rfl rfl,
   C8_extra_args.2.2.2 ctxW "c" tblW ["a"] ["b"]
      "[\x22boom\x22]\x0afailed with exit status: 1" [["boom"]] (by decide)⟩

/-! ## Claim C4 -/

/-- Claim C4: a positional reference `@N` (`N` in decimal digits) resolves to
the N-th entry of the document in insertion order, 1-indexed, returning that
definition of that entry together with its literal key as the canonical name
(clause 1; `@1` is the first-inserted entry whatever the alphabetical order).
`@0` wraps `N - 1` around in `usize` arithmetic to an index beyond any real
table and comes back as not-found rather than panicking or returning an entry
(clause 2, for documents of any representable size), and `@(N+1)` on an
N-entry table is equally out of range (clause 3); in both cases `primary`
turns the no-entry result into the `AliasNotFound`-style error (clause 4). -/
theorem C4_positional_locate :
    (∀ (doc : Tbl) (ds : List Char) (n : Nat) (k : String) (tv : Tbl),
        ds ≠ [] → (∀ c ∈ ds, isDigitC c = true) →
        digitsToNat ds = n → 1 ≤ n → n < 2 ^ 64 →
        doc.get? (n - 1) = some (k, .table tv) →
        get_section doc (String.mk ('@' :: ds)) = .ok (some tv, k)) ∧
    (∀ (doc : Tbl) (ds : List Char),
        ds ≠ [] → (∀ c ∈ ds, isDigitC c = true) →
        digitsToNat ds = 0 → doc.length < 2 ^ 64 →
        get_section doc (String.mk ('@' :: ds)) = .ok (none, "")) ∧
    (∀ (doc : Tbl) (ds : List Char) (n : Nat),
        ds ≠ [] → (∀ c ∈ ds, isDigitC c = true) →
        digitsToNat ds = n → doc.length < n → n < 2 ^ 64 →
        get_section doc (String.mk ('@' :: ds)) = .ok (none, "")) ∧
    (∀ (ctx : RunCtx) (doc : Tbl) (s : String) (args : List String),
        get_section doc s = .ok (none, "") →
        primary ctx doc s args = (.err (s ++ " not found"), [])) := by
  have hkey : ∀ (ds : List Char), ds ≠ [] → (∀ c ∈ ds, isDigitC c = true) →
      parseSectionKey (String.mk ('@' :: ds)) = some ds := by
    intro ds hne hdig
    simp [parseSectionKey, hne, List.all_eq_true.mpr hdig]
  refine ⟨?_, ?_, ?_, ?_⟩
  · intro doc ds n k tv hne hdig hval h1 h64 hget
    have hwrap : (n + (2 ^ 64 - 1)) % 2 ^ 64 = n - 1 := by omega
    simp only [get_section, hkey ds hne hdig, hval]
    rw [if_pos h64, hwrap, hget]
    rfl
  · intro doc ds hne hdig hval hlen
    have hwrap : (0 + (2 ^ 64 - 1)) % 2 ^ 64 = 2 ^ 64 - 1 := by omega
    have hget : doc.get? (2 ^ 64 - 1) = none :=
      List.get?_eq_none.mpr (by omega)
    simp only [get_section, hkey ds hne hdig, hval]
    rw [if_pos (by norm_num : (0 : Nat) < 2 ^ 64), hwrap, hget]
  · intro doc ds n hne hdig hval hlen h64
    have hwrap : (n + (2 ^ 64 - 1)) % 2 ^ 64 = n - 1 := by omega
    have hget : doc.get? (n - 1) = none :=
      List.get?_eq_none.mpr (by omega)
    simp only [get_section, hkey ds hne hdig, hval]
    rw [if_pos h64, hwrap, hget]
  · intro ctx doc s args h
    simp [primary, h]

/-- Witness for C4 on the two-entry document whose first key `zzz` sorts
after its second key `aaa`: `@1` is still the entry of `zzz`; `@0` and `@3` are
not found; `primary` reports the not-found error. -/
theorem C4_witness :
    get_section docTwo "@1" = .ok (some [("command", .arr [.str "z"])], "zzz") ∧
      get_section docTwo "@0" = .ok (none, "") ∧
      get_section docTwo "@3" = .ok (none, "") ∧
      primary ctxW docTwo "@0" [] = (.err ("@0" ++ " not found"), []) := by
  refine ⟨?_, ?_, ?_, ?_⟩
  · exact C4_positional_locate.1 docTwo ['1'] 1 "zzz"
      [("command", .arr [.str "z"])] (by simp) (by decide) rfl (by decide)
      (by decide) rfl
  · exact C4_positional_locate.2.1 docTwo ['0'] (by simp) (by decide) rfl
      (by decide)
  · exact C4_positional_locate.2.2.1 docTwo ['3'] 3 (by simp) (by decide) rfl
      (by decide) (by decide)
  · exact C4_positional_locate.2.2.2 ctxW docTwo "@0" []
      (C4_positional_locate.2.1 docTwo ['0'] (by simp) (by decide) rfl
        (by decide))

/-! ## Claim C9 -/

/-- Claim C9, counterexample to the claim as stated: with a main step whose
process exits with code 2 (`NonZeroExit(2)`), the front end exits with the
FIXED code 1, not with the child code 2 — `die` always calls `exit(1)`. -/
theorem C9_counterexample :
    (frontEnd (ctxExit 2) docOne "t" []).1 = 1 ∧ (1 : Nat) ≠ 2 :=
  ⟨rfl, by decide⟩

/-- Claim C9 (amended): the front end maps the pipeline result to a process
exit code of 0 on success; on failure it prints the error message (with
`println!`, i.e. to standard output, not the error stream) and exits with
the fixed code 1 — the own exit code of the failing step is embedded only in the
message text and is never propagated as the exit code (clause 3: for EVERY
non-zero child code `c` the exit code is 1). -/
theorem C9_front_end :
    (∀ (ctx : RunCtx) (doc : Tbl) (n : String) (args : List String),
        (primary ctx doc n args).1 = .ok () → frontEnd ctx doc n args = (0, none)) ∧
    (∀ (ctx : RunCtx) (doc : Tbl) (n : String) (args : List String) (e : String),
        (primary ctx doc n args).1 = .err e → frontEnd ctx doc n args = (1, some e)) ∧
    (∀ c : Int, c ≠ 0 →
        frontEnd (ctxExit c) docOne "t" [] =
          (1, some (rustDebugList ["x"] ++ "\x0afailed with exit status: " ++
            toString c))) := by
  refine ⟨?_, ?_, ?_⟩
  · intro ctx doc n args h
    simp [frontEnd, h]
  · intro ctx doc n args e h
    simp [frontEnd, h]
  · intro c hc
    have hrun : runCommand (ctxExit c) ["x"] =
        .error (rustDebugList ["x"] ++ "\x0afailed with exit status: " ++
          toString c) := by
      simp [runCommand, runResolved, ctxExit, hc]
    have hprim : primary (ctxExit c) docOne "t" [] =
        (.err (rustDebugList ["x"] ++ "\x0afailed with exit status: " ++
          toString c), [["x"]]) := by
      simp +decide [primary, get_section, parseSectionKey, docOne, tget,
        process_cmd, prePhase, postPhase, mainPhase, get_command, containsKey,
        run_argv, renderArgs, TomlVal.as_str, TomlVal.as_array,
        TomlVal.as_table, render_template, liftRR, hrun]
    simp [frontEnd, hprim]

/-- Witness for C9: a succeeding pipeline exits 0; the failing pipeline at
child code 2 exits 1 carrying the message. -/
theorem C9_witness :
    frontEnd ctxW docOne "t" [] = (0, none) ∧
      frontEnd (ctxExit 2) docOne "t" [] =
        (1, some (rustDebugList ["x"] ++ "\x0afailed with exit status: " ++
          toString (2 : Int))) :=
  ⟨C9_front_end.1 ctxW docOne "t" [] rfl,
   C9_front_end.2.2 2 (by decide)⟩

/-! ## Claim C7 -/

/-- Claim C7, counterexample to the claim as stated: the two-character string
`s = "\x1A\x01"` contains no placeholder pattern and no `~`, so the claim
asserts `render(scope, ":" + s) = s` (it has no `%%` to collapse) — but the
internal escape sentinel of the code is exactly that character sequence, and the
final unescape turns it into a literal `%`. -/
theorem C7_counterexample :
    render_template ctxW [] ":\x1a\x01" = .ok "%" ∧
      String.mk (specCollapsePct ("\x1a\x01" : String).data) = "\x1a\x01" ∧
      ("%" : String) ≠ "\x1a\x01" := by
  refine ⟨by decide, by decide, by decide⟩

/-- Claim C7 (amended): for every scope and every string `s` in which none of
the three placeholder scanners finds any match (after the `%%` capture), with
no `~`, AND NOT CONTAINING THE INTERNAL SENTINEL SEQUENCE `\x1A\x01`,
rendering `":" ++ s` succeeds and returns `s` with every literal `%%`
collapsed to a single `%`. -/
theorem C7_escape_roundtrip (ctx : RunCtx) (table : Tbl) (s : String)
    (h0 : noMatchIn env0TM (repPair '%' '%' sub1 s.data))
    (h1 : noMatchIn env1TM (repPair '%' '%' sub1 s.data))
    (h2 : noMatchIn varTM (repPair '%' '%' sub1 s.data))
    (h3 : '~' ∉ s.data)
    (h4 : hasPair '\x1a' '\x01' s.data = false) :
    render_template ctx table (":" ++ s) =
      .ok (String.mk (specCollapsePct s.data)) := by
  rw [colon_append_eq s]
  by_cases hnil : s.data = []
  · rw [hnil]
    rfl
  · rw [render_template_run ctx table hnil]
    have e0 : env0Replace ctx.env (repPair '%' '%' sub1 s.data) =
        (repPair '%' '%' sub1 s.data, []) := scanRep_id h0
    have e1 : env1Replace ctx.env (repPair '%' '%' sub1 s.data) =
        (repPair '%' '%' sub1 s.data, []) := scanRep_id h1
    have e2 : varReplace table (repPair '%' '%' sub1 s.data) =
        (repPair '%' '%' sub1 s.data, []) := scanRep_id h2
    have h3x : '~' ∉ repPair '%' '%' sub1 s.data := by
      intro hmem
      rcases repPair_mem hmem with hm | hm
      · exact h3 hm
      · exact absurd hm (by decide)
    have e3 : tildeReplace ctx (repPair '%' '%' sub1 s.data) =
        (repPair '%' '%' sub1 s.data, []) := tildeReplace_no_tilde h3x
    simp only [e0, e1, e2, e3, List.append_nil, List.nil_append,
      List.isEmpty_nil, if_true]
    rw [specCollapsePct, repPair_roundtrip h4]

/-- Witness for C7 at `s = "100%% done"`: the rendered result collapses the
escape to `"100% done"`. -/
theorem C7_witness :
    render_template ctxW [] (":" ++ "100%% done") = .ok "100% done" :=
  (C7_escape_roundtrip ctxW [] "100%% done"
    (noMatchIn_of_drops (by decide))
    (noMatchIn_of_drops (by decide))
    (noMatchIn_of_drops (by decide))
    (by decide) (by decide)).trans (by decide)

/-! ## More toolkit: no-pair identities for the escape pass -/

theorem hasPair_cons_ne {a b x y : Char} {rest : List Char}
    (h : ¬(x = a ∧ y = b)) :
    hasPair a b (x :: y :: rest) = hasPair a b (y :: rest) := by
  rw [hasPair, if_neg h]

theorem hasPair_append_left {a b : Char} {p : List Char} (hp : a ∉ p)
    (l : List Char) : hasPair a b (p ++ l) = hasPair a b l := by
  induction p with
  | nil => rfl
  | cons c p' ih =>
    simp only [List.mem_cons, not_or] at hp
    have hca : c ≠ a := fun hh => hp.1 hh.symm
    cases hpl : p' ++ l with
    | nil =>
      obtain ⟨rfl, rfl⟩ := List.append_eq_nil.mp hpl
      rfl
    | cons y t =>
      rw [List.cons_append, hpl, hasPair_cons_ne (fun hh => hca hh.1), ← hpl,
        ih hp.2]

theorem repPair_eq_of_no_pair {a b : Char} {rep l : List Char}
    (h : hasPair a b l = false) : repPair a b rep l = l := by
  induction l using repPair.induct a b rep with
  | case1 => rfl
  | case2 => rfl
  | case3 x y rest hxy ih =>
    rw [hasPair, if_pos hxy] at h
    exact absurd h (by simp)
  | case4 x y rest hxy ih =>
    rw [repPair_cons (by simpa using hxy), ih (hasPair_cons_false h).2]

theorem hasPair_pct_block {k : List Char} (hne : k ≠ []) (hk : '%' ∉ k)
    (rest : List Char) :
    hasPair '%' '%' ('%' :: (k ++ '%' :: rest)) =
      hasPair '%' '%' ('%' :: rest) := by
  obtain ⟨c, k', rfl⟩ := List.exists_cons_of_ne_nil hne
  simp only [List.mem_cons, not_or] at hk
  have hc : c ≠ '%' := fun hh => hk.1 hh.symm
  have hp2 : '%' ∉ c :: k' := by
    simp only [List.mem_cons, not_or]
    exact ⟨fun hh => hc hh.symm, hk.2⟩
  rw [List.cons_append, hasPair_cons_ne (fun hh => hc hh.2),
    show c :: (k' ++ '%' :: rest) = (c :: k') ++ '%' :: rest from rfl,
    hasPair_append_left hp2]

/-! ## Claim C6 -/

/-- Claim C6: within a template, (1) the environment-with-default stage never
records an error, on any input; (2) an occurrence of `%env:NAME:DEFAULT%` is
replaced by the value of `NAME` if set and by the literal `DEFAULT` text
otherwise, scanning continuing after it; (3) a remaining `%env:NAME%` whose
variable is set is replaced by its value; (4) one whose variable is unset
records the `UnknownEnvVar`-style error and substitutes the empty string, and
the scan still continues over the rest (its output and errors follow). -/
theorem C6_env_substitution :
    (∀ (env : String → Option String) (l : List Char),
        (env0Replace env l).2 = []) ∧
    (∀ (env : String → Option String) (p name dflt s : List Char),
        '%' ∉ p → ':' ∉ name → '\x0a' ∉ name → '%' ∉ dflt → '\x0a' ∉ dflt →
        env0Replace env
            (p ++ '%' :: 'e' :: 'n' :: 'v' :: ':' ::
              (name ++ ':' :: (dflt ++ '%' :: s))) =
          (p ++ (match env (String.mk name) with
                 | some v => v.data
                 | none => dflt) ++ (env0Replace env s).1,
           (env0Replace env s).2)) ∧
    (∀ (env : String → Option String) (p name s : List Char) (v : String),
        '%' ∉ p → '%' ∉ name → '\x0a' ∉ name →
        env (String.mk name) = some v →
        env1Replace env
            (p ++ '%' :: 'e' :: 'n' :: 'v' :: ':' :: (name ++ '%' :: s)) =
          (p ++ v.data ++ (env1Replace env s).1, (env1Replace env s).2)) ∧
    (∀ (env : String → Option String) (p name s : List Char),
        '%' ∉ p → '%' ∉ name → '\x0a' ∉ name →
        env (String.mk name) = none →
        env1Replace env
            (p ++ '%' :: 'e' :: 'n' :: 'v' :: ':' :: (name ++ '%' :: s)) =
          (p ++ (env1Replace env s).1,
           envMissingMsg name :: (env1Replace env s).2)) := by
  refine ⟨?_, ?_, ?_, ?_⟩
  · intro env l
    exact env0Replace_no_errors env l.length l
  · intro env p name dflt s hp hn1 hn2 hd1 hd2
    have hstep : ∀ c ∈ p, ∀ t, env0TM (c :: t) = none := fun c hc _ =>
      env0TM_cons_ne (fun he => hp (he ▸ hc))
    unfold env0Replace
    rw [scanRep_append_none hstep,
      scanRep_match (fun l m r h => env0TM_shorter h)
        (env0TM_hit hn1 hn2 hd1 hd2)]
    cases henv : env (String.mk name) <;>
      simp [env0RF, henv, List.append_assoc]
  · intro env p name s v hp hn1 hn2 henv
    have hstep : ∀ c ∈ p, ∀ t, env1TM (c :: t) = none := fun c hc _ =>
      env1TM_cons_ne (fun he => hp (he ▸ hc))
    unfold env1Replace
    rw [scanRep_append_none hstep,
      scanRep_match (fun l m r h => env1TM_shorter h) (env1TM_hit hn1 hn2)]
    simp [env1RF, henv, List.append_assoc]
  · intro env p name s hp hn1 hn2 henv
    have hstep : ∀ c ∈ p, ∀ t, env1TM (c :: t) = none := fun c hc _ =>
      env1TM_cons_ne (fun he => hp (he ▸ hc))
    unfold env1Replace
    rw [scanRep_append_none hstep,
      scanRep_match (fun l m r h => env1TM_shorter h) (env1TM_hit hn1 hn2)]
    simp [env1RF, henv, List.append_assoc]

/-- Witness for C6 with the `ctxW` environment (`GREET` set to `%key%`, `PCT`
set to `%%`, everything else unset): default taken and value taken for the
two-argument form, value and error for the required form. -/
theorem C6_witness :
    env0Replace ctxW.env
        (['a'] ++ '%' :: 'e' :: 'n' :: 'v' :: ':' ::
          ("GREET".data ++ ':' :: ("dd".data ++ '%' :: ['z']))) =
      ("a%key%z".data, []) ∧
      env0Replace ctxW.env
          (['a'] ++ '%' :: 'e' :: 'n' :: 'v' :: ':' ::
            ("NOPE".data ++ ':' :: ("dd".data ++ '%' :: ['z']))) =
        ("addz".data, []) ∧
      env1Replace ctxW.env
          (['a'] ++ '%' :: 'e' :: 'n' :: 'v' :: ':' :: ("PCT".data ++ '%' :: ['z'])) =
        ("a%%z".data, []) ∧
      env1Replace ctxW.env
          (['a'] ++ '%' :: 'e' :: 'n' :: 'v' :: ':' :: ("NOPE".data ++ '%' :: ['z'])) =
        ("az".data, [envMissingMsg "NOPE".data]) :=
  ⟨(C6_env_substitution.2.1 ctxW.env ['a'] "GREET".data "dd".data ['z']
      (by decide) (by decide) (by decide) (by decide) (by decide)).trans (by decide),
   (C6_env_substitution.2.1 ctxW.env ['a'] "NOPE".data "dd".data ['z']
      (by decide) (by decide) (by decide) (by decide) (by decide)).trans (by decide),
   (C6_env_substitution.2.2.1 ctxW.env ['a'] "PCT".data ['z'] "%%"
      (by decide) (by decide) (by decide) (by decide)).trans (by decide),
   (C6_env_substitution.2.2.2 ctxW.env ['a'] "NOPE".data ['z']
      (by decide) (by decide) (by decide) (by decide)).trans (by decide)⟩

theorem env0TM_no_colon_tail {rest : List Char} (h : ':' ∉ rest) :
    env0TM ('%' :: 'e' :: 'n' :: 'v' :: ':' :: rest) = none := by
  have hp : '%' :: 'e' :: 'n' :: 'v' :: ':' :: rest = envPat ++ rest := rfl
  rw [env0TM, hp, stripLit_append]
  simp [matchEnv0Groups_no_colon h]

/-! ## Claim C3 -/

/-- Claim C3: `render` does not fail fast — the stages push their resolution
errors into one shared list and `render` fails with the whole list joined by
newlines.  Clause 1: a template with two distinct unresolvable scope keys
reports BOTH problems, in scan order.  Clause 2: errors from different stages
also aggregate — one unset required environment variable plus one unknown
scope key produce a single error value listing the environment error first
and the key error second. -/
theorem C3_error_aggregation :
    (∀ (ctx : RunCtx) (table : Tbl) (k1 k2 : List Char),
        k1 ≠ [] → k2 ≠ [] → k1 ≠ k2 →
        '%' ∉ k1 → ':' ∉ k1 → '\x0a' ∉ k1 →
        '%' ∉ k2 → ':' ∉ k2 → '\x0a' ∉ k2 →
        tget table (String.mk k1) = none →
        tget table (String.mk k2) = none →
        render_template ctx table
            (String.mk (':' :: '%' :: (k1 ++ '%' :: ' ' :: '%' :: (k2 ++ ['%'])))) =
          .err ("(Unknown table key: " ++ String.mk k1 ++ ")" ++ "\x0a" ++
            ("(Unknown table key: " ++ String.mk k2 ++ ")"))) ∧
    (∀ (ctx : RunCtx) (table : Tbl) (en k : List Char),
        k ≠ [] →
        '%' ∉ en → ':' ∉ en → '\x0a' ∉ en →
        '%' ∉ k → ':' ∉ k → '\x0a' ∉ k →
        ctx.env (String.mk en) = none →
        tget table (String.mk k) = none →
        render_template ctx table
            (String.mk (':' :: '%' :: 'e' :: 'n' :: 'v' :: ':' ::
              (en ++ '%' :: ' ' :: '%' :: (k ++ ['%'])))) =
          .err (envMissingMsg en ++ "\x0a" ++
            ("(Unknown table key: " ++ String.mk k ++ ")"))) := by
  constructor
  · intro ctx table k1 k2 hne1 hne2 _hnek h1p h1c h1n h2p h2c h2n ht1 ht2
    rw [render_template_run ctx table (by simp)]
    have hnopair : hasPair '%' '%'
        ('%' :: (k1 ++ '%' :: ' ' :: '%' :: (k2 ++ ['%']))) = false := by
      rw [hasPair_pct_block hne1 h1p,
        hasPair_cons_ne (by decide),
        hasPair_cons_ne (by decide),
        hasPair_pct_block hne2 h2p]
      rfl
    have hx1 : repPair '%' '%' sub1
        ('%' :: (k1 ++ '%' :: ' ' :: '%' :: (k2 ++ ['%']))) =
        '%' :: (k1 ++ '%' :: ' ' :: '%' :: (k2 ++ ['%'])) :=
      repPair_eq_of_no_pair hnopair
    have hcolon : ':' ∉ '%' :: (k1 ++ '%' :: ' ' :: '%' :: (k2 ++ ['%'])) := by
      intro hm
      simp only [List.mem_cons, List.mem_append, List.mem_singleton] at hm
      rcases hm with h | h | h | h | h | h | h <;>
        first
          | exact absurd h (by decide)
          | exact h1c h
          | exact h2c h
    have he0 : env0Replace ctx.env
        ('%' :: (k1 ++ '%' :: ' ' :: '%' :: (k2 ++ ['%']))) =
        ('%' :: (k1 ++ '%' :: ' ' :: '%' :: (k2 ++ ['%'])), []) :=
      env0Replace_no_colon hcolon
    have he1 : env1Replace ctx.env
        ('%' :: (k1 ++ '%' :: ' ' :: '%' :: (k2 ++ ['%']))) =
        ('%' :: (k1 ++ '%' :: ' ' :: '%' :: (k2 ++ ['%'])), []) :=
      env1Replace_no_colon hcolon
    have hvar : varReplace table
        ('%' :: (k1 ++ '%' :: ' ' :: '%' :: (k2 ++ ['%']))) =
        ([' '], ["(Unknown table key: " ++ String.mk k1 ++ ")",
                 "(Unknown table key: " ++ String.mk k2 ++ ")"]) := by
      unfold varReplace
      rw [scanRep_match (fun l m r h => varTM_shorter h) (varTM_hit h1p h1n),
        scanRep_cons_none (varTM_cons_ne (by decide)),
        scanRep_match (fun l m r h => varTM_shorter h) (varTM_hit h2p h2n)]
      simp [varRF, ht1, ht2, scanRep_nil]
    have htilde : tildeReplace ctx [' '] = ([' '], []) :=
      tildeReplace_no_tilde (by decide)
    rw [hx1]
    simp only [he0, he1, hvar, htilde]
    simp [joinLines]
  · intro ctx table en k hnek h1p h1c h1n h2p h2c h2n henv ht
    rw [render_template_run ctx table (by simp)]
    have hnocend : ':' ∉ en ++ '%' :: ' ' :: '%' :: (k ++ ['%']) := by
      intro hm
      simp only [List.mem_cons, List.mem_append, List.mem_singleton] at hm
      rcases hm with h | h | h | h | h | h <;>
        first
          | exact absurd h (by decide)
          | exact h1c h
          | exact h2c h
    have hnopair : hasPair '%' '%'
        ('%' :: 'e' :: 'n' :: 'v' :: ':' :: (en ++ '%' :: ' ' :: '%' :: (k ++ ['%']))) = false := by
      rw [hasPair_cons_ne (by decide), hasPair_cons_ne (by decide),
        hasPair_cons_ne (by decide), hasPair_cons_ne (by decide)]
      by_cases hene : en = []
      · subst hene
        simp only [List.nil_append]
        rw [hasPair_cons_ne (by decide), hasPair_cons_ne (by decide),
          hasPair_cons_ne (by decide), hasPair_pct_block hnek h2p]
        rfl
      · obtain ⟨c, en', rfl⟩ := List.exists_cons_of_ne_nil hene
        simp only [List.mem_cons, not_or] at h1p
        rw [List.cons_append,
          hasPair_cons_ne (fun hh => h1p.1 hh.2.symm),
          show c :: (en' ++ '%' :: ' ' :: '%' :: (k ++ ['%'])) =
            (c :: en') ++ '%' :: ' ' :: '%' :: (k ++ ['%']) from rfl,
          hasPair_append_left (by
            simp only [List.mem_cons, not_or]
            exact ⟨h1p.1, h1p.2⟩),
          hasPair_cons_ne (by decide), hasPair_cons_ne (by decide),
          hasPair_pct_block hnek h2p]
        rfl
    have hx1 : repPair '%' '%' sub1
        ('%' :: 'e' :: 'n' :: 'v' :: ':' :: (en ++ '%' :: ' ' :: '%' :: (k ++ ['%']))) =
        '%' :: 'e' :: 'n' :: 'v' :: ':' :: (en ++ '%' :: ' ' :: '%' :: (k ++ ['%'])) :=
      repPair_eq_of_no_pair hnopair
    have he0 : env0Replace ctx.env
        ('%' :: 'e' :: 'n' :: 'v' :: ':' :: (en ++ '%' :: ' ' :: '%' :: (k ++ ['%']))) =
        ('%' :: 'e' :: 'n' :: 'v' :: ':' :: (en ++ '%' :: ' ' :: '%' :: (k ++ ['%'])), []) := by
      unfold env0Replace
      rw [scanRep_cons_none (env0TM_no_colon_tail hnocend),
        scanRep_cons_none (env0TM_cons_ne (by decide)),
        scanRep_cons_none (env0TM_cons_ne (by decide)),
        scanRep_cons_none (env0TM_cons_ne (by decide)),
        scanRep_cons_none (env0TM_cons_ne (by decide)),
        scanRep_id (fun c t hdt => env0TM_no_colon
          (fun hc => hnocend (hdt.subset hc)))]
    have he1 : env1Replace ctx.env
        ('%' :: 'e' :: 'n' :: 'v' :: ':' :: (en ++ '%' :: ' ' :: '%' :: (k ++ ['%']))) =
        (' ' :: '%' :: (k ++ ['%']), [envMissingMsg en]) := by
      unfold env1Replace
      rw [scanRep_match (fun l m r h => env1TM_shorter h)
          (env1TM_hit h1p h1n),
        scanRep_cons_none (env1TM_cons_ne (by decide)),
        scanRep_cons_none (env1TM_no_colon (by
          intro hm
          simp only [List.mem_cons, List.mem_append, List.mem_singleton] at hm
          rcases hm with h | h | h <;>
            first
              | exact absurd h (by decide)
              | exact h2c h)),
        scanRep_append_none (fun c hc _ => env1TM_cons_ne
          (fun he => h2p (he ▸ hc))),
        scanRep_cons_none (env1TM_no_colon (by decide)),
        scanRep_nil]
      simp [env1RF, henv]
    have hvar : varReplace table (' ' :: '%' :: (k ++ ['%'])) =
        ([' '], ["(Unknown table key: " ++ String.mk k ++ ")"]) := by
      unfold varReplace
      rw [scanRep_cons_none (varTM_cons_ne (by decide)),
        scanRep_match (fun l m r h => varTM_shorter h) (varTM_hit h2p h2n)]
      simp [varRF, ht, scanRep_nil]
    have htilde : tildeReplace ctx [' '] = ([' '], []) :=
      tildeReplace_no_tilde (by decide)
    rw [hx1]
    simp only [he0, he1, hvar, htilde]
    simp [joinLines]

/-- Witness for C3: two unknown keys `aa` and `bb` produce one error listing
both; an unset `NOPE` environment variable plus unknown key `aa` produce one
error listing both, environment first. -/
theorem C3_witness :
    render_template ctxW [] ":%aa% %bb%" =
      .err "(Unknown table key: aa)\x0a(Unknown table key: bb)" ∧
      render_template ctxW [] ":%env:NOPE% %aa%" =
        .err "(Unknown ENV variable: NOPE: environment variable not found\x0a(Unknown table key: aa)" :=
  ⟨(C3_error_aggregation.1 ctxW [] "aa".data "bb".data (by decide) (by decide)
      (by decide) (by decide) (by decide) (by decide) (by decide) (by decide)
      (by decide) rfl rfl).trans (by decide),
   (C3_error_aggregation.2 ctxW [] "NOPE".data "aa".data (by decide)
      (by decide) (by decide) (by decide) (by decide) (by decide) (by decide)
      rfl rfl).trans (by decide)⟩

theorem data_mk (l : List Char) : (String.mk l).data = l := rfl

/-! ## Claim C10 -/

/-- Claim C10: the substitution stages run in sequence over the whole
intermediate string, so text inserted by an earlier stage is rescanned by
every later stage.  Clause 1: if environment variable NAME holds `%KEY%` and
the scope maps KEY to `~/w`, then rendering `:%env:NAME%` substitutes the
environment value, rescans it as a scope placeholder, and home-expands the
`~/` inside the scope value — the result is HOME ++ w.  Clause 2: an
environment value of `%%` inserted by the environment stage is NOT immune to
the later stages (it is re-read as the empty scope key `%KEY%` and fails),
whereas (clause 3) a literal `%%` written in the original template is
captured as the sentinel and comes back as a single `%`. -/
theorem C10_stage_rescan :
    (∀ (ctx : RunCtx) (table : Tbl) (name key w : List Char),
        '%' ∉ name → ':' ∉ name → '\x0a' ∉ name →
        '%' ∉ key → '\x0a' ∉ key →
        '~' ∉ w → '\x1a' ∉ w → '\x1a' ∉ ctx.home.data →
        ctx.env (String.mk name) = some (String.mk ('%' :: (key ++ ['%']))) →
        tget table (String.mk key) = some (.str (String.mk ('~' :: '/' :: w))) →
        render_template ctx table
            (String.mk (':' :: '%' :: 'e' :: 'n' :: 'v' :: ':' :: (name ++ ['%']))) =
          .ok (String.mk (ctx.home.data ++ w))) ∧
    (∀ (ctx : RunCtx) (table : Tbl) (name : List Char),
        '%' ∉ name → ':' ∉ name → '\x0a' ∉ name →
        ctx.env (String.mk name) = some "%%" →
        tget table (String.mk []) = none →
        render_template ctx table
            (String.mk (':' :: '%' :: 'e' :: 'n' :: 'v' :: ':' :: (name ++ ['%']))) =
          .err "(Unknown table key: )") ∧
    (∀ (ctx : RunCtx) (table : Tbl),
        render_template ctx table ":%%" = .ok "%") := by
  have hnopairEnv : ∀ (name : List Char), '%' ∉ name →
      hasPair '%' '%' ('%' :: 'e' :: 'n' :: 'v' :: ':' :: (name ++ ['%'])) = false := by
    intro name h1p
    rw [hasPair_cons_ne (by decide),
      show 'e' :: 'n' :: 'v' :: ':' :: (name ++ ['%']) =
        ['e', 'n', 'v', ':'] ++ (name ++ ['%']) from rfl,
      hasPair_append_left (by decide),
      hasPair_append_left h1p]
    rfl
  have hx1Env : ∀ (name : List Char), '%' ∉ name →
      repPair '%' '%' sub1 ('%' :: 'e' :: 'n' :: 'v' :: ':' :: (name ++ ['%'])) =
        '%' :: 'e' :: 'n' :: 'v' :: ':' :: (name ++ ['%']) :=
    fun name h1p => repPair_eq_of_no_pair (hnopairEnv name h1p)
  have hnocolonTail : ∀ (name : List Char), ':' ∉ name →
      ':' ∉ name ++ ['%'] := by
    intro name h1c hm
    rcases List.mem_append.mp hm with h | h
    · exact h1c h
    · exact absurd h (by decide)
  have he0 : ∀ (env : String → Option String) (name : List Char), ':' ∉ name →
      env0Replace env ('%' :: 'e' :: 'n' :: 'v' :: ':' :: (name ++ ['%'])) =
        ('%' :: 'e' :: 'n' :: 'v' :: ':' :: (name ++ ['%']), []) := by
    intro env name h1c
    unfold env0Replace
    rw [scanRep_cons_none (env0TM_no_colon_tail (hnocolonTail name h1c)),
      scanRep_cons_none (env0TM_cons_ne (by decide)),
      scanRep_cons_none (env0TM_cons_ne (by decide)),
      scanRep_cons_none (env0TM_cons_ne (by decide)),
      scanRep_cons_none (env0TM_cons_ne (by decide)),
      scanRep_id (fun c t hdt => env0TM_no_colon
        (fun hc => hnocolonTail name h1c (hdt.subset hc)))]
  have he1 : ∀ (env : String → Option String) (name : List Char) (v : String),
      '%' ∉ name → '\x0a' ∉ name → env (String.mk name) = some v →
      env1Replace env ('%' :: 'e' :: 'n' :: 'v' :: ':' :: (name ++ ['%'])) =
        (v.data, []) := by
    intro env name v h1p h1n henv
    unfold env1Replace
    have hit : env1TM ('%' :: 'e' :: 'n' :: 'v' :: ':' :: (name ++ '%' :: [])) =
        some (name, []) := env1TM_hit h1p h1n
    rw [scanRep_match (fun l m r h => env1TM_shorter h) hit, scanRep_nil]
    simp [env1RF, henv]
  refine ⟨?_, ?_, ?_⟩
  · intro ctx table name key w h1p h1c h1n h2p h2n hw1 hw2 hhome henv ht
    rw [render_template_run ctx table (by simp)]
    rw [hx1Env name h1p]
    have hvar : varReplace table ('%' :: (key ++ ['%'])) =
        ('~' :: '/' :: w, []) := by
      unfold varReplace
      rw [scanRep_match (fun l m r h => varTM_shorter h) (varTM_hit h2p h2n),
        scanRep_nil]
      simp [varRF, ht, TomlVal.as_str]
    have htilde : tildeReplace ctx ('~' :: '/' :: w) =
        (ctx.home.data ++ w, []) := by
      unfold tildeReplace
      rw [scanRep_match (fun l m r h => tildeTM_shorter h) (tildeTM_bare w),
        scanRep_id (fun c t hdt => tildeTM_no_tilde
          (fun hc => hw1 (hdt.subset hc)))]
      simp [tildeRF]
    have hnosub : '\x1a' ∉ ctx.home.data ++ w := by
      intro hm
      rcases List.mem_append.mp hm with h | h
      · exact hhome h
      · exact hw2 h
    simp only [he0 ctx.env name h1c, he1 ctx.env name _ h1p h1n henv,
      data_mk, hvar, htilde]
    simp [repPair_id hnosub]
  · intro ctx table name h1p h1c h1n henv ht
    rw [render_template_run ctx table (by simp)]
    rw [hx1Env name h1p]
    have hvar : varReplace table ('%' :: '%' :: []) =
        ([], ["(Unknown table key: )"]) := by
      unfold varReplace
      have hit : varTM ('%' :: '%' :: []) = some ([], []) := by decide
      rw [scanRep_match (fun l m r h => varTM_shorter h) hit, scanRep_nil]
      simp only [varRF, ht]
      simp
    have htilde : tildeReplace ctx ([] : List Char) = ([], []) := scanRep_nil
    simp only [he0 ctx.env name h1c, he1 ctx.env name _ h1p h1n henv]
    show (if (([] : List String) ++ ((varReplace table ("%%").data).2 ++
        (tildeReplace ctx (varReplace table ("%%").data).1).2)).isEmpty = true
      then _ else _) = _
    simp only [show ("%%").data = '%' :: '%' :: [] from rfl, hvar, htilde]
    simp [joinLines]
  · intro ctx table
    show render_template ctx table (String.mk (':' :: ['%', '%'])) = .ok "%"
    rw [render_template_run ctx table (by decide)]
    have hx1 : repPair '%' '%' sub1 ['%', '%'] = ['\x1a', '\x01'] := by decide
    rw [hx1]
    simp only [env0Replace_no_colon (by decide : ':' ∉ ['\x1a', '\x01']),
      env1Replace_no_colon (by decide : ':' ∉ ['\x1a', '\x01']),
      varReplace_no_pct (by decide : '%' ∉ ['\x1a', '\x01']),
      tildeReplace_no_tilde (by decide : '~' ∉ ['\x1a', '\x01'])]
    simp [repPair]

/-- Witness for C10 in `ctxW`/`tblW`: `GREET` holds `%key%`, `key` holds
`~/sub`, and rendering `:%env:GREET%` yields `/home/u/sub`; `PCT` holds `%%`
and rendering `:%env:PCT%` against an empty scope fails on the empty key;
a literal `:%%` renders to `%`. -/
theorem C10_witness :
    render_template ctxW tblW
        (String.mk (':' :: '%' :: 'e' :: 'n' :: 'v' :: ':' :: ("GREET".data ++ ['%']))) =
      .ok "/home/u/sub" ∧
      render_template ctxW []
          (String.mk (':' :: '%' :: 'e' :: 'n' :: 'v' :: ':' :: ("PCT".data ++ ['%']))) =
        .err "(Unknown table key: )" ∧
      render_template ctxW tblW ":%%" = .ok "%" :=
  ⟨(C10_stage_rescan.1 ctxW tblW "GREET".data "key".data "sub".data
      (by decide) (by decide) (by decide) (by decide) (by decide) (by decide)
      (by decide) (by decide) rfl rfl).trans (by decide),
   C10_stage_rescan.2.1 ctxW [] "PCT".data (by decide) (by decide) (by decide)
      rfl rfl,
   C10_stage_rescan.2.2 ctxW tblW⟩
